import Mathlib

/-! # LQR lane keeping: Riccati solver and closed-loop simulation

Shallow embedding of `src/lqr_lane_keeping.cpp`, and of
`Solution::getConcatenation` from `src/explore.cpp`.

* The program is embedded twice.  The first embedding reads `double` as the exact
  rationals (`ℚ`): it is the algorithm over exact arithmetic, and every statement
  made on it is a statement over exact arithmetic.  The second embedding (`Dbl`)
  reads `double` as binary64 (`F64`): every operation is rounded to nearest, ties
  to even, with signed zeros, infinities and NaN, in the order of the source; it
  gives the values the program computes.
* A division by zero has no exact value.  `inv_scalar` therefore returns an
  `Option`, and `none` propagates through the solver.  `none` is *not* an error
  signal of the program: the C++ function is `void`, has no error path and
  continues silently with IEEE infinities/NaNs.
* `int` loop bounds are `Int`; a counted loop `for (k = 0; k < n; ++k)` runs its
  body `n.toNat` times.
* In `getConcatenation` a `vector<int>` is a `List Int`; the size arithmetic is
  done in `int`, and where it overflows the model has no value.
-/

namespace LqrLaneKeeping

/-! ## Data model (`struct LQR`) -/

/-- The `struct LQR` of the source: plant `A`, `B`, weights `Q`, `R`, Riccati
matrix `P` and gain `K`, all as named scalar fields. -/
structure LQR where
  A11 : ℚ
  A12 : ℚ
  A21 : ℚ
  A22 : ℚ
  B1 : ℚ
  B2 : ℚ
  Q11 : ℚ
  Q12 : ℚ
  Q21 : ℚ
  Q22 : ℚ
  R : ℚ
  P11 : ℚ
  P12 : ℚ
  P21 : ℚ
  P22 : ℚ
  K1 : ℚ
  K2 : ℚ
deriving DecidableEq

/-- Source `LQR::det2`: `a11 * a22 + (-a12) * a21`. -/
def det2 (a11 a12 a21 a22 : ℚ) : ℚ :=
  a11 * a22 + (-a12) * a21

/-- Source `LQR::inv_scalar`: `1.0 / s`.  Over exact arithmetic the quotient
exists only for `s ≠ 0`. -/
def inv_scalar (s : ℚ) : Option ℚ :=
  if s = 0 then none else some (1 / s)

/-- The scalar `S = R + B^T P B` as the source computes it from the current `P`
(lines 37-40 and again 72-75). -/
def calcS (c : LQR) : ℚ :=
  let PB1 := c.P11 * c.B1 + c.P12 * c.B2
  let PB2 := c.P21 * c.B1 + c.P22 * c.B2
  let BT_P_B := c.B1 * PB1 + c.B2 * PB2
  c.R + BT_P_B

/-- First statement of `solveRiccatiIterative`: `P11 = Q11; P12 = Q12; ...`. -/
def initP (c : LQR) : LQR :=
  { c with P11 := c.Q11, P12 := c.Q12, P21 := c.Q21, P22 := c.Q22 }

/-- One pass of the `for` loop body of `solveRiccatiIterative` (lines 36-68). -/
def riccatiBody (c : LQR) : Option LQR :=
  let PB1 := c.P11 * c.B1 + c.P12 * c.B2
  let PB2 := c.P21 * c.B1 + c.P22 * c.B2
  let BT_P_B := c.B1 * PB1 + c.B2 * PB2
  let S := c.R + BT_P_B
  (inv_scalar S).map fun Sinv =>
    let PA11 := c.P11 * c.A11 + c.P12 * c.A21
    let PA12 := c.P11 * c.A12 + c.P12 * c.A22
    let PA21 := c.P21 * c.A11 + c.P22 * c.A21
    let PA22 := c.P21 * c.A12 + c.P22 * c.A22
    let AT_PA11 := c.A11 * PA11 + c.A21 * PA21
    let AT_PA12 := c.A11 * PA12 + c.A21 * PA22
    let AT_PA21 := c.A12 * PA11 + c.A22 * PA21
    let AT_PA22 := c.A12 * PA12 + c.A22 * PA22
    let AT_PB1 := c.A11 * PB1 + c.A21 * PB2
    let AT_PB2 := c.A12 * PB1 + c.A22 * PB2
    let term11 := AT_PB1 * Sinv * AT_PB1
    let term12 := AT_PB1 * Sinv * AT_PB2
    let term21 := AT_PB2 * Sinv * AT_PB1
    let term22 := AT_PB2 * Sinv * AT_PB2
    { c with
      P11 := c.Q11 + (AT_PA11 - term11)
      P12 := c.Q12 + (AT_PA12 - term12)
      P21 := c.Q21 + (AT_PA21 - term21)
      P22 := c.Q22 + (AT_PA22 - term22) }

/-- The `for (int k = 0; k < iters; ++k)` loop: the body, then the remaining
passes. -/
def riccatiLoop : Nat → LQR → Option LQR
  | 0, c => some c
  | k + 1, c => (riccatiBody c).bind (riccatiLoop k)

/-- The gain computation after the loop (lines 71-87): `K = S^{-1} B^T P A`. -/
def computeGain (c : LQR) : Option LQR :=
  let PB1 := c.P11 * c.B1 + c.P12 * c.B2
  let PB2 := c.P21 * c.B1 + c.P22 * c.B2
  let BT_P_B := c.B1 * PB1 + c.B2 * PB2
  let S := c.R + BT_P_B
  (inv_scalar S).map fun Sinv =>
    let PA11 := c.P11 * c.A11 + c.P12 * c.A21
    let PA12 := c.P11 * c.A12 + c.P12 * c.A22
    let PA21 := c.P21 * c.A11 + c.P22 * c.A21
    let PA22 := c.P21 * c.A12 + c.P22 * c.A22
    let BT_PA1 := c.B1 * PA11 + c.B2 * PA21
    let BT_PA2 := c.B1 * PA12 + c.B2 * PA22
    { c with K1 := Sinv * BT_PA1, K2 := Sinv * BT_PA2 }

/-- Source `LQR::solveRiccatiIterative(int iters)`: seed `P` with `Q`, run the
loop `iters` times (not at all for `iters ≤ 0`), then compute the gain. -/
def solveRiccatiIterative (c : LQR) (iters : Int) : Option LQR :=
  (riccatiLoop iters.toNat (initP c)).bind computeGain

/-! ## Closed-loop simulation (`main`) -/

/-- One CSV row written by `main`: `t,ey,epsi,delta`. -/
structure Sample where
  t : ℚ
  ey : ℚ
  epsi : ℚ
  delta : ℚ
deriving DecidableEq

/-- The mutable locals of the simulation loop of `main` together with the rows
written to the log so far. -/
structure SimState where
  t : ℚ
  ey : ℚ
  epsi : ℚ
  delta : ℚ
  log : List Sample
deriving DecidableEq

/-- Lines 128-130 of `main`: the raw control followed by the two saturation
tests, in source order. -/
def controlOf (ctrl : LQR) (delta_min delta_max ey epsi : ℚ) : ℚ :=
  let delta := -(ctrl.K1 * ey + ctrl.K2 * epsi)
  let delta := if delta < delta_min then delta_min else delta
  let delta := if delta > delta_max then delta_max else delta
  delta

/-- One pass of the simulation loop body of `main` (lines 127-142). -/
def simBody (ctrl : LQR) (delta_min delta_max dt : ℚ) (s : SimState) : SimState :=
  let delta := controlOf ctrl delta_min delta_max s.ey s.epsi
  let log := s.log ++ [{ t := s.t, ey := s.ey, epsi := s.epsi, delta := delta }]
  let ey_next := ctrl.A11 * s.ey + ctrl.A12 * s.epsi + ctrl.B1 * delta
  let epsi_next := ctrl.A21 * s.ey + ctrl.A22 * s.epsi + ctrl.B2 * delta
  { t := s.t + dt, ey := ey_next, epsi := epsi_next, delta := delta, log := log }

/-- The `for (int k = 0; k < steps; ++k)` loop of `main`. -/
def simLoop (ctrl : LQR) (delta_min delta_max dt : ℚ) : Nat → SimState → SimState
  | 0, s => s
  | k + 1, s => simLoop ctrl delta_min delta_max dt k (simBody ctrl delta_min delta_max dt s)

/-- The simulation part of `main` (lines 113-143) with its constants as
parameters: initial state, `delta = 0.0`, `t = 0.0`, empty log, then the loop. -/
def simulate (ctrl : LQR) (ey0 epsi0 delta_min delta_max dt : ℚ) (steps : Int) : SimState :=
  simLoop ctrl delta_min delta_max dt steps.toNat
    { t := 0, ey := ey0, epsi := epsi0, delta := 0, log := [] }

/-- The controller as `main` configures it (lines 93-109).  The fields `P` and
`K` are not initialised by `main`; they keep whatever `junk` holds. -/
def mainCtrl (junk : LQR) : LQR :=
  let v : ℚ := 10
  let L : ℚ := 5 / 2
  let dt : ℚ := 1 / 20
  { junk with
    A11 := 1, A12 := dt * v, A21 := 0, A22 := 1
    B1 := 0, B2 := dt * v / L
    Q11 := 3, Q12 := 0, Q21 := 0, Q22 := 3 / 2
    R := 1 / 2 }

/-- The computation of `main`: configure, solve with 800 iterations, simulate
600 steps of 0.05 s from `(1.0, 0.20)` with steering limits `±0.6`. -/
def mainRun (junk : LQR) : Option SimState :=
  (solveRiccatiIterative (mainCtrl junk) 800).map fun ctrl =>
    simulate ctrl 1 (1 / 5) (-(3 / 5)) (3 / 5) (1 / 20) 600


/-! ## Matrix views of the struct fields and the operations as the spec words them -/

/-- The fields `A11..A22` as a 2x2 matrix. -/
def matA (c : LQR) : Matrix (Fin 2) (Fin 2) ℚ := !![c.A11, c.A12; c.A21, c.A22]

/-- The fields `B1, B2` as a column vector. -/
def matB (c : LQR) : Matrix (Fin 2) (Fin 1) ℚ := !![c.B1; c.B2]

/-- The fields `Q11..Q22` as a 2x2 matrix. -/
def matQ (c : LQR) : Matrix (Fin 2) (Fin 2) ℚ := !![c.Q11, c.Q12; c.Q21, c.Q22]

/-- The fields `P11..P22` as a 2x2 matrix. -/
def matP (c : LQR) : Matrix (Fin 2) (Fin 2) ℚ := !![c.P11, c.P12; c.P21, c.P22]

/-- The fields `K1, K2` as a row vector. -/
def matK (c : LQR) : Matrix (Fin 1) (Fin 2) ℚ := !![c.K1, c.K2]

/-- Spec 4.1, `S = R + Bᵗ·P·B` for control dimension 1. -/
def specS (B : Matrix (Fin 2) (Fin 1) ℚ) (R : ℚ) (P : Matrix (Fin 2) (Fin 2) ℚ) : ℚ :=
  R + (B.transpose * P * B) 0 0

/-- Spec 4.1 step 2, the map `P ↦ Q + Aᵗ·P·A − (Aᵗ·P·B)·S⁻¹·(Bᵗ·P·A)`; it has no
value where `S = 0`. -/
def riccatiMapSpec (A : Matrix (Fin 2) (Fin 2) ℚ) (B : Matrix (Fin 2) (Fin 1) ℚ)
    (Q : Matrix (Fin 2) (Fin 2) ℚ) (R : ℚ) (P : Matrix (Fin 2) (Fin 2) ℚ) :
    Option (Matrix (Fin 2) (Fin 2) ℚ) :=
  if specS B R P = 0 then none
  else some (Q + A.transpose * P * A
    - (A.transpose * P * B) * ((specS B R P)⁻¹ • (B.transpose * P * A)))

/-- Spec 4.1 steps 1-2: `P₀ = Q`, then `n` applications of the map. -/
def riccatiIterSpec (A : Matrix (Fin 2) (Fin 2) ℚ) (B : Matrix (Fin 2) (Fin 1) ℚ)
    (Q : Matrix (Fin 2) (Fin 2) ℚ) (R : ℚ) : Nat → Option (Matrix (Fin 2) (Fin 2) ℚ)
  | 0 => some Q
  | n + 1 => (riccatiIterSpec A B Q R n).bind (riccatiMapSpec A B Q R)

/-- Spec 4.1 step 3, `K = S⁻¹·Bᵗ·P·A`. -/
def gainSpec (A : Matrix (Fin 2) (Fin 2) ℚ) (B : Matrix (Fin 2) (Fin 1) ℚ)
    (R : ℚ) (P : Matrix (Fin 2) (Fin 2) ℚ) : Matrix (Fin 1) (Fin 2) ℚ :=
  (specS B R P)⁻¹ • (B.transpose * P * A)

/-- Spec 4.2 step 2, `u ← max(control_min, min(control_max, u))`. -/
def clampSpec (u control_min control_max : ℚ) : ℚ :=
  max control_min (min control_max u)

/-! ## Predicates and proof devices -/

/-- A struct with every field zero, used as the unspecified initial content of a
local `LQR` in concrete evaluations. -/
def zeroLQR : LQR :=
  ⟨0, 0, 0, 0, 0, 0, 0, 0, 0, 0, 0, 0, 0, 0, 0, 0, 0⟩

/-- Two structs pose the same problem: they agree on `A`, `B`, `Q` and `R`. -/
def SameProblem (c d : LQR) : Prop :=
  c.A11 = d.A11 ∧ c.A12 = d.A12 ∧ c.A21 = d.A21 ∧ c.A22 = d.A22 ∧
  c.B1 = d.B1 ∧ c.B2 = d.B2 ∧
  c.Q11 = d.Q11 ∧ c.Q12 = d.Q12 ∧ c.Q21 = d.Q21 ∧ c.Q22 = d.Q22 ∧ c.R = d.R

/-- Proof device: the rows that `k` passes of the simulation loop append, as a
function of the values of `t`, `ey`, `epsi` on loop entry. -/
def trajFrom (ctrl : LQR) (delta_min delta_max dt : ℚ) : Nat → ℚ → ℚ → ℚ → List Sample
  | 0, _, _, _ => []
  | k + 1, t, ey, epsi =>
    { t := t, ey := ey, epsi := epsi, delta := controlOf ctrl delta_min delta_max ey epsi } ::
      trajFrom ctrl delta_min delta_max dt k (t + dt)
        (ctrl.A11 * ey + ctrl.A12 * epsi + ctrl.B1 * controlOf ctrl delta_min delta_max ey epsi)
        (ctrl.A21 * ey + ctrl.A22 * epsi + ctrl.B2 * controlOf ctrl delta_min delta_max ey epsi)

/-- The quadratic form `xᵗ M x` of a 2x2 matrix given by its entries. -/
def quadForm (m11 m12 m21 m22 x1 x2 : ℚ) : ℚ :=
  x1 * (m11 * x1 + m12 * x2) + x2 * (m21 * x1 + m22 * x2)

/-- The weight `Q` is positive-semidefinite: `xᵗ Q x ≥ 0` for every `x`. -/
def PsdQ (c : LQR) : Prop :=
  ∀ x1 x2 : ℚ, 0 ≤ quadForm c.Q11 c.Q12 c.Q21 c.Q22 x1 x2

/-- The stored `P` is positive-semidefinite: `xᵗ P x ≥ 0` for every `x`. -/
def PsdP (c : LQR) : Prop :=
  ∀ x1 x2 : ℚ, 0 ≤ quadForm c.P11 c.P12 c.P21 c.P22 x1 x2

/-- The unsaturated closed-loop matrix `A − B K` of the stored gain. -/
def closedLoop (c : LQR) : Matrix (Fin 2) (Fin 2) ℚ :=
  matA c - matB c * matK c

/-- Invariant of the iterates in the scenario of `main`: `P` is symmetric and
positive-semidefinite, dominates `Q = diag(3, 3/2)` on the diagonal, is dominated
by `U = [[14, 10], [10, 16]]`, and has a nonnegative off-diagonal entry. -/
def MainInv (p : LQR) : Prop :=
  p.P12 = p.P21 ∧ PsdP p ∧
  (∀ x1 x2 : ℚ, quadForm p.P11 p.P12 p.P21 p.P22 x1 x2 ≤ quadForm 14 10 10 16 x1 x2) ∧
  3 ≤ p.P11 ∧ 3 / 2 ≤ p.P22 ∧ 0 ≤ p.P21

/-- A controller with a negative control weight: `A = I`, `B = (0, 1)`, `Q = I`,
`R = -3`. -/
def negRCtrl : LQR :=
  { zeroLQR with A11 := 1, A22 := 1, B2 := 1, Q11 := 1, Q22 := 1, R := -3 }

/-- The map as the loop body builds it, in matrix form: the rank-one term is
formed from `Aᵗ·P·B` alone, `(Aᵗ·P·B)·S⁻¹·(Aᵗ·P·B)ᵗ`. -/
def riccatiMapCode (A : Matrix (Fin 2) (Fin 2) ℚ) (B : Matrix (Fin 2) (Fin 1) ℚ)
    (Q : Matrix (Fin 2) (Fin 2) ℚ) (R : ℚ) (P : Matrix (Fin 2) (Fin 2) ℚ) :
    Option (Matrix (Fin 2) (Fin 2) ℚ) :=
  if specS B R P = 0 then none
  else some (Q + A.transpose * P * A
    - (A.transpose * P * B) * ((specS B R P)⁻¹ • (A.transpose * P * B).transpose))

/-- A struct whose stored `P = [[0, 1], [0, 0]]` is not symmetric: `A = I`,
`B = (1, 1)`, `Q = 0`, `R = 1`. -/
def nonSymCtrl : LQR :=
  { zeroLQR with A11 := 1, A22 := 1, B1 := 1, B2 := 1, R := 1, P12 := 1 }

/-! ## Array concatenation (`src/explore.cpp`) -/

/-- Largest value of the 32-bit C++ `int`. -/
def INT_MAX : Nat := 2147483647

/-- One pass of the `for` loop of `Solution::getConcatenation` (`src/explore.cpp`,
lines 11-12) for index `i`: `ans[i] = nums[i]; ans[i + n] = nums[i];`. -/
def concatBody (nums : List Int) (n : Nat) (ans : List Int) (i : Nat) : List Int :=
  (ans.set i (nums.getD i 0)).set (i + n) (nums.getD i 0)

/-- Source `Solution::getConcatenation` (`src/explore.cpp`, lines 7-15):
`n = static_cast<int>(nums.size())`, a zero-filled `ans` of size `2 * n`, then
the loop for `i = 0 .. n - 1`.  The size and its double are computed in `int`;
where `2 * n` does not fit (signed overflow, no defined behaviour) the model has
no value. -/
def getConcatenation (nums : List Int) : Option (List Int) :=
  if 2 * nums.length ≤ INT_MAX then
    some ((List.range nums.length).foldl (concatBody nums nums.length)
      (List.replicate (2 * nums.length) 0))
  else none

/-! ## Double arithmetic (binary64) and the program in double arithmetic -/

/-- A binary64 value (`double`): a signed dyadic `(-1)^neg * m * 2^e`, kept with `m`
odd (or `m = 0`, `e = 0` for the signed zeros), an infinity, or NaN. -/
inductive F64 where
  | fin (neg : Bool) (m : Nat) (e : Int)
  | inf (neg : Bool)
  | nan
deriving DecidableEq

namespace F64

/-- Number of binary digits of `m` (`fuel` bounds the recursion). -/
def bitsAux : Nat → Nat → Nat
  | 0, _ => 0
  | fuel + 1, m => if m = 0 then 0 else bitsAux fuel (m / 2) + 1

/-- Number of binary digits of `m`. -/
def bits (m : Nat) : Nat := bitsAux 8192 m

/-- Number of trailing zero bits of `m` (`fuel` bounds the recursion). -/
def tzAux : Nat → Nat → Nat
  | 0, _ => 0
  | fuel + 1, m => if m % 2 = 1 then 0 else if m = 0 then 0 else tzAux fuel (m / 2) + 1

/-- Number of trailing zero bits of `m`. -/
def tz (m : Nat) : Nat := tzAux 8192 m

/-- The double with sign `neg` and magnitude `m * 2^e`, for a magnitude that needs
no rounding: normal form, and infinity from `2^1024` on. -/
def pack (neg : Bool) (m : Nat) (e : Int) : F64 :=
  if m = 0 then fin neg 0 0
  else
    let t := tz m
    let m1 := m / 2 ^ t
    let e1 := e + (t : Int)
    if (bits m1 : Int) + e1 > 1024 then inf neg else fin neg m1 e1

/-- Round-to-nearest, ties-to-even, of the exact dyadic `m * 2^e` to binary64:
53 significant bits, least exponent `-1074` (gradual underflow). -/
def round (neg : Bool) (m : Nat) (e : Int) : F64 :=
  let drop : Int := max ((bits m : Int) - 53) (-1074 - e)
  if drop ≤ 0 then pack neg m e
  else
    let d := drop.toNat
    let q := m / 2 ^ d
    let r := m % 2 ^ d
    let half := 2 ^ (d - 1)
    let q1 := if r > half ∨ (r = half ∧ q % 2 = 1) then q + 1 else q
    pack neg q1 (e + drop)

/-- Correctly rounded quotient `(num / den) * 2^e` for `den ≠ 0`: the quotient is
computed to more than 64 bits with a sticky last bit, then rounded. -/
def roundQuot (neg : Bool) (num den : Nat) (e : Int) : F64 :=
  let k := 64 + bits den
  let n := num * 2 ^ k
  let q := n / den
  let s := if n % den = 0 then 0 else 1
  round neg (2 * q + s) (e - (k : Int) - 1)

/-- The double written as the decimal literal `num / den` (sign `neg`). -/
def lit (neg : Bool) (num den : Nat) : F64 :=
  roundQuot neg num den 0

/-- Unary minus. -/
def fneg : F64 → F64
  | fin s m e => fin (!s) m e
  | inf s => inf (!s)
  | nan => nan

/-- Addition of doubles. -/
def fadd : F64 → F64 → F64
  | nan, _ => nan
  | _, nan => nan
  | inf s, inf t => if s = t then inf s else nan
  | inf s, fin _ _ _ => inf s
  | fin _ _ _, inf t => inf t
  | fin s m e, fin t n f =>
    let g := min e f
    let a : Int := (if s then -1 else 1) * ((m * 2 ^ (e - g).toNat : Nat) : Int)
    let b : Int := (if t then -1 else 1) * ((n * 2 ^ (f - g).toNat : Nat) : Int)
    let c := a + b
    if c = 0 then fin (s && t) 0 0 else round (decide (c < 0)) c.natAbs g

/-- Subtraction of doubles. -/
def fsub (x y : F64) : F64 := fadd x (fneg y)

/-- Multiplication of doubles. -/
def fmul : F64 → F64 → F64
  | nan, _ => nan
  | _, nan => nan
  | inf s, inf t => inf (xor s t)
  | inf s, fin t n _ => if n = 0 then nan else inf (xor s t)
  | fin s m _, inf t => if m = 0 then nan else inf (xor s t)
  | fin s m e, fin t n f => round (xor s t) (m * n) (e + f)

/-- Division of doubles. -/
def fdiv : F64 → F64 → F64
  | nan, _ => nan
  | _, nan => nan
  | inf _, inf _ => nan
  | inf s, fin t _ _ => inf (xor s t)
  | fin s _ _, inf t => fin (xor s t) 0 0
  | fin s m e, fin t n f =>
    if n = 0 then (if m = 0 then nan else inf (xor s t))
    else if m = 0 then fin (xor s t) 0 0
    else roundQuot (xor s t) m n (e - f)

/-- Exact value comparison key of two finite doubles on a common exponent. -/
def key (s : Bool) (m : Nat) (e g : Int) : Int :=
  (if s then -1 else 1) * ((m * 2 ^ (e - g).toNat : Nat) : Int)

/-- The comparison `x < y` of doubles (false when either is NaN). -/
def flt : F64 → F64 → Bool
  | nan, _ => false
  | _, nan => false
  | inf s, inf t => s && !t
  | inf s, fin _ _ _ => s
  | fin _ _ _, inf t => !t
  | fin s m e, fin t n f => decide (key s m e (min e f) < key t n f (min e f))

/-- The comparison `x <= y` of doubles (false when either is NaN). -/
def fle : F64 → F64 → Bool
  | nan, _ => false
  | _, nan => false
  | inf s, inf t => s || !t
  | inf s, fin _ _ _ => s
  | fin _ _ _, inf t => !t
  | fin s m e, fin t n f => decide (key s m e (min e f) ≤ key t n f (min e f))

end F64

/-- The rational value of a finite double (`0` for infinities and NaN). -/
def F64.toRat : F64 → ℚ
  | F64.fin s m e => (if s then -1 else 1) * (m : ℚ) * (2 : ℚ) ^ e
  | F64.inf _ => 0
  | F64.nan => 0

namespace Dbl

open F64

/-- The `struct LQR` of the source with its fields as doubles. -/
structure LQR where
  A11 : F64
  A12 : F64
  A21 : F64
  A22 : F64
  B1 : F64
  B2 : F64
  Q11 : F64
  Q12 : F64
  Q21 : F64
  Q22 : F64
  R : F64
  P11 : F64
  P12 : F64
  P21 : F64
  P22 : F64
  K1 : F64
  K2 : F64
deriving DecidableEq

/-- Source `LQR::inv_scalar` in double arithmetic: `1.0 / s`. -/
def inv_scalar (s : F64) : F64 :=
  fdiv (F64.fin false 1 0) s

/-- The scalar `S = R + B^T P B` in double arithmetic, in the order of the source
(lines 37-40). -/
def calcS (c : LQR) : F64 :=
  let PB1 := fadd (fmul c.P11 c.B1) (fmul c.P12 c.B2)
  let PB2 := fadd (fmul c.P21 c.B1) (fmul c.P22 c.B2)
  let BT_P_B := fadd (fmul c.B1 PB1) (fmul c.B2 PB2)
  fadd c.R BT_P_B

/-- First statement of `solveRiccatiIterative`: `P11 = Q11; P12 = Q12; ...`. -/
def initP (c : LQR) : LQR :=
  { c with P11 := c.Q11, P12 := c.Q12, P21 := c.Q21, P22 := c.Q22 }

/-- One pass of the `for` loop body of `solveRiccatiIterative` (lines 36-68) in
double arithmetic, every operation rounded, in the order of the source. -/
def riccatiBody (c : LQR) : LQR :=
  let PB1 := fadd (fmul c.P11 c.B1) (fmul c.P12 c.B2)
  let PB2 := fadd (fmul c.P21 c.B1) (fmul c.P22 c.B2)
  let BT_P_B := fadd (fmul c.B1 PB1) (fmul c.B2 PB2)
  let S := fadd c.R BT_P_B
  let Sinv := inv_scalar S
  let PA11 := fadd (fmul c.P11 c.A11) (fmul c.P12 c.A21)
  let PA12 := fadd (fmul c.P11 c.A12) (fmul c.P12 c.A22)
  let PA21 := fadd (fmul c.P21 c.A11) (fmul c.P22 c.A21)
  let PA22 := fadd (fmul c.P21 c.A12) (fmul c.P22 c.A22)
  let AT_PA11 := fadd (fmul c.A11 PA11) (fmul c.A21 PA21)
  let AT_PA12 := fadd (fmul c.A11 PA12) (fmul c.A21 PA22)
  let AT_PA21 := fadd (fmul c.A12 PA11) (fmul c.A22 PA21)
  let AT_PA22 := fadd (fmul c.A12 PA12) (fmul c.A22 PA22)
  let AT_PB1 := fadd (fmul c.A11 PB1) (fmul c.A21 PB2)
  let AT_PB2 := fadd (fmul c.A12 PB1) (fmul c.A22 PB2)
  let term11 := fmul (fmul AT_PB1 Sinv) AT_PB1
  let term12 := fmul (fmul AT_PB1 Sinv) AT_PB2
  let term21 := fmul (fmul AT_PB2 Sinv) AT_PB1
  let term22 := fmul (fmul AT_PB2 Sinv) AT_PB2
  { c with
    P11 := fadd c.Q11 (fsub AT_PA11 term11)
    P12 := fadd c.Q12 (fsub AT_PA12 term12)
    P21 := fadd c.Q21 (fsub AT_PA21 term21)
    P22 := fadd c.Q22 (fsub AT_PA22 term22) }

/-- The `for (int k = 0; k < iters; ++k)` loop in double arithmetic. -/
def riccatiLoop : Nat → LQR → LQR
  | 0, c => c
  | k + 1, c => riccatiLoop k (riccatiBody c)

/-- The gain computation after the loop (lines 71-87) in double arithmetic. -/
def computeGain (c : LQR) : LQR :=
  let PB1 := fadd (fmul c.P11 c.B1) (fmul c.P12 c.B2)
  let PB2 := fadd (fmul c.P21 c.B1) (fmul c.P22 c.B2)
  let BT_P_B := fadd (fmul c.B1 PB1) (fmul c.B2 PB2)
  let S := fadd c.R BT_P_B
  let Sinv := inv_scalar S
  let PA11 := fadd (fmul c.P11 c.A11) (fmul c.P12 c.A21)
  let PA12 := fadd (fmul c.P11 c.A12) (fmul c.P12 c.A22)
  let PA21 := fadd (fmul c.P21 c.A11) (fmul c.P22 c.A21)
  let PA22 := fadd (fmul c.P21 c.A12) (fmul c.P22 c.A22)
  let BT_PA1 := fadd (fmul c.B1 PA11) (fmul c.B2 PA21)
  let BT_PA2 := fadd (fmul c.B1 PA12) (fmul c.B2 PA22)
  { c with K1 := fmul Sinv BT_PA1, K2 := fmul Sinv BT_PA2 }

/-- Source `LQR::solveRiccatiIterative(int iters)` in double arithmetic. -/
def solveRiccatiIterative (c : LQR) (iters : Int) : LQR :=
  computeGain (riccatiLoop iters.toNat (initP c))

/-- One CSV row written by `main`, as doubles. -/
structure Sample where
  t : F64
  ey : F64
  epsi : F64
  delta : F64
deriving DecidableEq

/-- The mutable locals of the simulation loop of `main`, as doubles, with the rows
written so far. -/
structure SimState where
  t : F64
  ey : F64
  epsi : F64
  delta : F64
  log : List Sample
deriving DecidableEq

/-- Lines 128-130 of `main` in double arithmetic: the raw control, then the two
saturation tests in source order (`delta > delta_max` is `delta_max < delta`). -/
def controlOf (ctrl : LQR) (delta_min delta_max ey epsi : F64) : F64 :=
  let delta := fneg (fadd (fmul ctrl.K1 ey) (fmul ctrl.K2 epsi))
  let delta := if flt delta delta_min then delta_min else delta
  let delta := if flt delta_max delta then delta_max else delta
  delta

/-- One pass of the simulation loop body of `main` (lines 127-142) in double
arithmetic. -/
def simBody (ctrl : LQR) (delta_min delta_max dt : F64) (s : SimState) : SimState :=
  let delta := controlOf ctrl delta_min delta_max s.ey s.epsi
  let log := s.log ++ [{ t := s.t, ey := s.ey, epsi := s.epsi, delta := delta }]
  let ey_next := fadd (fadd (fmul ctrl.A11 s.ey) (fmul ctrl.A12 s.epsi)) (fmul ctrl.B1 delta)
  let epsi_next := fadd (fadd (fmul ctrl.A21 s.ey) (fmul ctrl.A22 s.epsi)) (fmul ctrl.B2 delta)
  { t := fadd s.t dt, ey := ey_next, epsi := epsi_next, delta := delta, log := log }

/-- The `for (int k = 0; k < steps; ++k)` loop of `main` in double arithmetic. -/
def simLoop (ctrl : LQR) (delta_min delta_max dt : F64) : Nat → SimState → SimState
  | 0, s => s
  | k + 1, s => simLoop ctrl delta_min delta_max dt k (simBody ctrl delta_min delta_max dt s)

/-- The simulation part of `main` (lines 113-143) in double arithmetic. -/
def simulate (ctrl : LQR) (ey0 epsi0 delta_min delta_max dt : F64) (steps : Int) : SimState :=
  simLoop ctrl delta_min delta_max dt steps.toNat
    { t := F64.fin false 0 0, ey := ey0, epsi := epsi0, delta := F64.fin false 0 0, log := [] }

/-- A struct with every field `+0.0`. -/
def zeroLQR : LQR :=
  ⟨F64.fin false 0 0, F64.fin false 0 0, F64.fin false 0 0, F64.fin false 0 0,
   F64.fin false 0 0, F64.fin false 0 0, F64.fin false 0 0, F64.fin false 0 0,
   F64.fin false 0 0, F64.fin false 0 0, F64.fin false 0 0, F64.fin false 0 0,
   F64.fin false 0 0, F64.fin false 0 0, F64.fin false 0 0, F64.fin false 0 0,
   F64.fin false 0 0⟩

/-- The controller as `main` configures it (lines 93-109), in double arithmetic:
`v = 10.0`, `L = 2.5`, `dt = 0.05`, `A12 = dt * v`, `B2 = dt * v / L`. -/
def mainCtrl (junk : LQR) : LQR :=
  let v := lit false 10 1
  let L := lit false 25 10
  let dt := lit false 5 100
  { junk with
    A11 := lit false 1 1, A12 := fmul dt v, A21 := lit false 0 1, A22 := lit false 1 1
    B1 := lit false 0 1, B2 := fdiv (fmul dt v) L
    Q11 := lit false 3 1, Q12 := lit false 0 1, Q21 := lit false 0 1, Q22 := lit false 15 10
    R := lit false 5 10 }

end Dbl

/-- Proof device: the rows that `k` passes of the double-arithmetic simulation
loop append, as a function of the values of `t`, `ey`, `epsi` on loop entry. -/
def Dbl.trajFrom (ctrl : Dbl.LQR) (delta_min delta_max dt : F64) :
    Nat → F64 → F64 → F64 → List Dbl.Sample
  | 0, _, _, _ => []
  | k + 1, t, ey, epsi =>
    { t := t, ey := ey, epsi := epsi,
      delta := Dbl.controlOf ctrl delta_min delta_max ey epsi } ::
      Dbl.trajFrom ctrl delta_min delta_max dt k (F64.fadd t dt)
        (F64.fadd (F64.fadd (F64.fmul ctrl.A11 ey) (F64.fmul ctrl.A12 epsi))
          (F64.fmul ctrl.B1 (Dbl.controlOf ctrl delta_min delta_max ey epsi)))
        (F64.fadd (F64.fadd (F64.fmul ctrl.A21 ey) (F64.fmul ctrl.A22 epsi))
          (F64.fmul ctrl.B2 (Dbl.controlOf ctrl delta_min delta_max ey epsi)))

/-- Double-arithmetic scenario with an overflowing state: `A = 2 I`, `B = 0`,
`K = (1, 1)`. -/
def Dbl.overflowCtrl : Dbl.LQR :=
  { Dbl.zeroLQR with
    A11 := F64.lit false 2 1, A22 := F64.lit false 2 1
    K1 := F64.lit false 1 1, K2 := F64.lit false 1 1 }

/-- Double-arithmetic scenario in which `Bᵗ Q B` cancels `R`: `A = I`,
`B = (11744051.200000001, -8388608)`, `Q = [[25, 35], [35, 49]]`, `R = 0.5`. -/
def Dbl.cancelCtrl : Dbl.LQR :=
  { Dbl.zeroLQR with
    A11 := F64.lit false 1 1, A22 := F64.lit false 1 1
    B1 := F64.lit false 11744051200000001 1000000000, B2 := F64.lit true 8388608 1
    Q11 := F64.lit false 25 1, Q12 := F64.lit false 35 1
    Q21 := F64.lit false 35 1, Q22 := F64.lit false 49 1
    R := F64.lit false 5 10 }

/-- Double-arithmetic scenario with a singular `Q`: `A = [[0.1, 0], [1, 1.1]]`,
`B = (0.3, -0.1)`, `Q = [[4, 4], [4, 4]]`, `R = 0.5`. -/
def Dbl.roundCtrl : Dbl.LQR :=
  { Dbl.zeroLQR with
    A11 := F64.lit false 1 10, A21 := F64.lit false 1 1, A22 := F64.lit false 11 10
    B1 := F64.lit false 3 10, B2 := F64.lit true 1 10
    Q11 := F64.lit false 4 1, Q12 := F64.lit false 4 1
    Q21 := F64.lit false 4 1, Q22 := F64.lit false 4 1
    R := F64.lit false 5 10 }

/-- Double-arithmetic scenario without control: `A = [[0.1, 0.1], [0.2, 0]]`,
`B = 0`, `Q = diag(3, 0)`, `R = 0.1`. -/
def Dbl.driftCtrl : Dbl.LQR :=
  { Dbl.zeroLQR with
    A11 := F64.lit false 1 10, A12 := F64.lit false 1 10, A21 := F64.lit false 2 10
    Q11 := F64.lit false 3 1
    R := F64.lit false 1 10 }

/-- The exact rational values of the fields of a struct of doubles (meaningful when
every field is finite). -/
def Dbl.toExact (c : Dbl.LQR) : LqrLaneKeeping.LQR :=
  { A11 := F64.toRat c.A11, A12 := F64.toRat c.A12, A21 := F64.toRat c.A21,
    A22 := F64.toRat c.A22, B1 := F64.toRat c.B1, B2 := F64.toRat c.B2,
    Q11 := F64.toRat c.Q11, Q12 := F64.toRat c.Q12, Q21 := F64.toRat c.Q21,
    Q22 := F64.toRat c.Q22, R := F64.toRat c.R,
    P11 := F64.toRat c.P11, P12 := F64.toRat c.P12, P21 := F64.toRat c.P21,
    P22 := F64.toRat c.P22, K1 := F64.toRat c.K1, K2 := F64.toRat c.K2 }

/-! ## Basic facts about the solver -/

theorem SameProblem.refl (c : LQR) : SameProblem c c := by
  simp [SameProblem]

theorem SameProblem.trans {c d e : LQR} (h₁ : SameProblem c d) (h₂ : SameProblem d e) :
    SameProblem c e := by
  simp only [SameProblem] at *
  obtain ⟨a1, a2, a3, a4, a5, a6, a7, a8, a9, a10, a11⟩ := h₁
  obtain ⟨b1, b2, b3, b4, b5, b6, b7, b8, b9, b10, b11⟩ := h₂
  exact ⟨a1.trans b1, a2.trans b2, a3.trans b3, a4.trans b4, a5.trans b5, a6.trans b6,
    a7.trans b7, a8.trans b8, a9.trans b9, a10.trans b10, a11.trans b11⟩

theorem inv_scalar_of_ne {s : ℚ} (h : s ≠ 0) : inv_scalar s = some (1 / s) := by
  simp [inv_scalar, h]

theorem inv_scalar_zero : inv_scalar 0 = none := by
  simp [inv_scalar]

theorem inv_scalar_eq_some {s v : ℚ} (h : inv_scalar s = some v) : s ≠ 0 ∧ v = 1 / s := by
  unfold inv_scalar at h
  split at h
  · simp at h
  · rename_i hs
    exact ⟨hs, by simpa using h.symm⟩

theorem riccatiBody_eq_none {c : LQR} (h : calcS c = 0) : riccatiBody c = none := by
  have h' : c.R + (c.B1 * (c.P11 * c.B1 + c.P12 * c.B2)
      + c.B2 * (c.P21 * c.B1 + c.P22 * c.B2)) = 0 := h
  simp [riccatiBody, h', inv_scalar]

theorem riccatiBody_isSome {c : LQR} (h : calcS c ≠ 0) : ∃ d, riccatiBody c = some d := by
  have h' : c.R + (c.B1 * (c.P11 * c.B1 + c.P12 * c.B2)
      + c.B2 * (c.P21 * c.B1 + c.P22 * c.B2)) ≠ 0 := h
  simp [riccatiBody, inv_scalar, h']

theorem riccatiBody_some {c d : LQR} (h : riccatiBody c = some d) :
    calcS c ≠ 0 ∧ SameProblem c d ∧ d.K1 = c.K1 ∧ d.K2 = c.K2 ∧
    d.P11 = c.Q11 + (c.A11 * (c.P11 * c.A11 + c.P12 * c.A21)
        + c.A21 * (c.P21 * c.A11 + c.P22 * c.A21)
      - (c.A11 * (c.P11 * c.B1 + c.P12 * c.B2) + c.A21 * (c.P21 * c.B1 + c.P22 * c.B2))
        * (1 / calcS c)
        * (c.A11 * (c.P11 * c.B1 + c.P12 * c.B2) + c.A21 * (c.P21 * c.B1 + c.P22 * c.B2))) ∧
    d.P12 = c.Q12 + (c.A11 * (c.P11 * c.A12 + c.P12 * c.A22)
        + c.A21 * (c.P21 * c.A12 + c.P22 * c.A22)
      - (c.A11 * (c.P11 * c.B1 + c.P12 * c.B2) + c.A21 * (c.P21 * c.B1 + c.P22 * c.B2))
        * (1 / calcS c)
        * (c.A12 * (c.P11 * c.B1 + c.P12 * c.B2) + c.A22 * (c.P21 * c.B1 + c.P22 * c.B2))) ∧
    d.P21 = c.Q21 + (c.A12 * (c.P11 * c.A11 + c.P12 * c.A21)
        + c.A22 * (c.P21 * c.A11 + c.P22 * c.A21)
      - (c.A12 * (c.P11 * c.B1 + c.P12 * c.B2) + c.A22 * (c.P21 * c.B1 + c.P22 * c.B2))
        * (1 / calcS c)
        * (c.A11 * (c.P11 * c.B1 + c.P12 * c.B2) + c.A21 * (c.P21 * c.B1 + c.P22 * c.B2))) ∧
    d.P22 = c.Q22 + (c.A12 * (c.P11 * c.A12 + c.P12 * c.A22)
        + c.A22 * (c.P21 * c.A12 + c.P22 * c.A22)
      - (c.A12 * (c.P11 * c.B1 + c.P12 * c.B2) + c.A22 * (c.P21 * c.B1 + c.P22 * c.B2))
        * (1 / calcS c)
        * (c.A12 * (c.P11 * c.B1 + c.P12 * c.B2) + c.A22 * (c.P21 * c.B1 + c.P22 * c.B2))) := by
  unfold riccatiBody at h
  simp only [Option.map_eq_some'] at h
  obtain ⟨v, hv, hd⟩ := h
  obtain ⟨hs, rfl⟩ := inv_scalar_eq_some hv
  subst hd
  refine ⟨hs, ?_, rfl, rfl, rfl, rfl, rfl, rfl⟩
  simp [SameProblem]

theorem riccatiLoop_succ_right (k : Nat) (c : LQR) :
    riccatiLoop (k + 1) c = (riccatiLoop k c).bind riccatiBody := by
  induction k generalizing c with
  | zero => simp [riccatiLoop]
  | succ k ih =>
    rw [riccatiLoop]
    cases hb : riccatiBody c with
    | none => simp [riccatiLoop, hb]
    | some d =>
      simp only [Option.some_bind]
      rw [ih d]
      conv_rhs => rw [riccatiLoop, hb]
      simp

theorem riccatiLoop_some {k : Nat} {c d : LQR} (h : riccatiLoop k c = some d) :
    SameProblem c d ∧ d.K1 = c.K1 ∧ d.K2 = c.K2 := by
  induction k generalizing c with
  | zero =>
    simp only [riccatiLoop, Option.some.injEq] at h
    subst h
    exact ⟨SameProblem.refl c, rfl, rfl⟩
  | succ k ih =>
    rw [riccatiLoop] at h
    cases hb : riccatiBody c with
    | none => simp [hb] at h
    | some e =>
      rw [hb, Option.some_bind] at h
      obtain ⟨h1, h2, h3⟩ := ih h
      obtain ⟨-, g1, g2, g3, -⟩ := riccatiBody_some hb
      exact ⟨g1.trans h1, h2.trans g2, h3.trans g3⟩

theorem matA_entries (c : LQR) : matA c 0 0 = c.A11 ∧ matA c 0 1 = c.A12 ∧
    matA c 1 0 = c.A21 ∧ matA c 1 1 = c.A22 := ⟨rfl, rfl, rfl, rfl⟩

theorem matB_entries (c : LQR) : matB c 0 0 = c.B1 ∧ matB c 1 0 = c.B2 := ⟨rfl, rfl⟩

theorem matQ_entries (c : LQR) : matQ c 0 0 = c.Q11 ∧ matQ c 0 1 = c.Q12 ∧
    matQ c 1 0 = c.Q21 ∧ matQ c 1 1 = c.Q22 := ⟨rfl, rfl, rfl, rfl⟩

theorem matP_entries (c : LQR) : matP c 0 0 = c.P11 ∧ matP c 0 1 = c.P12 ∧
    matP c 1 0 = c.P21 ∧ matP c 1 1 = c.P22 := ⟨rfl, rfl, rfl, rfl⟩

theorem matK_entries (c : LQR) : matK c 0 0 = c.K1 ∧ matK c 0 1 = c.K2 := ⟨rfl, rfl⟩

theorem specS_eq_calcS (c : LQR) : specS (matB c) c.R (matP c) = calcS c := by
  obtain ⟨b1, b2⟩ := matB_entries c
  obtain ⟨p1, p2, p3, p4⟩ := matP_entries c
  simp only [specS, calcS, Matrix.mul_apply, Matrix.transpose_apply, Fin.sum_univ_two,
    b1, b2, p1, p2, p3, p4]
  ring

/-- With a symmetric current `P`, the loop body computes the map of the spec. -/
theorem riccatiBody_matP (c : LQR) (hP : c.P12 = c.P21) :
    (riccatiBody c).map matP = riccatiMapSpec (matA c) (matB c) (matQ c) c.R (matP c) := by
  unfold riccatiMapSpec
  rw [specS_eq_calcS]
  by_cases hS : calcS c = 0
  · simp [riccatiBody_eq_none hS, hS]
  · obtain ⟨d, hd⟩ := riccatiBody_isSome hS
    obtain ⟨-, -, -, -, h11, h12, h21, h22⟩ := riccatiBody_some hd
    rw [hd, if_neg hS, Option.map_some', Option.some.injEq]
    obtain ⟨a1, a2, a3, a4⟩ := matA_entries c
    obtain ⟨b1, b2⟩ := matB_entries c
    obtain ⟨q1, q2, q3, q4⟩ := matQ_entries c
    obtain ⟨p1, p2, p3, p4⟩ := matP_entries c
    obtain ⟨d1, d2, d3, d4⟩ := matP_entries d
    ext i j
    fin_cases i <;> fin_cases j <;>
      simp only [Fin.zero_eta, Fin.mk_one, Matrix.add_apply, Matrix.sub_apply,
        Matrix.mul_apply, Matrix.smul_apply, Matrix.transpose_apply, Fin.sum_univ_two,
        Finset.univ_unique, Fin.default_eq_zero, Finset.sum_singleton, smul_eq_mul,
        a1, a2, a3, a4, b1, b2, q1, q2, q3, q4, p1, p2, p3, p4, d1, d2, d3, d4,
        h11, h12, h21, h22, hP] <;> ring

theorem riccatiBody_symm {c d : LQR} (h : riccatiBody c = some d) (hQ : c.Q12 = c.Q21)
    (hP : c.P12 = c.P21) : d.P12 = d.P21 := by
  obtain ⟨-, -, -, -, -, h12, h21, -⟩ := riccatiBody_some h
  rw [h12, h21, hQ, hP]
  ring

theorem riccatiLoop_symm {k : Nat} {c d : LQR} (h : riccatiLoop k c = some d)
    (hQ : c.Q12 = c.Q21) (hP : c.P12 = c.P21) : d.P12 = d.P21 := by
  induction k generalizing c with
  | zero =>
    simp only [riccatiLoop, Option.some.injEq] at h
    subst h
    exact hP
  | succ k ih =>
    rw [riccatiLoop] at h
    cases hb : riccatiBody c with
    | none => simp [hb] at h
    | some e =>
      rw [hb, Option.some_bind] at h
      have hs := (riccatiBody_some hb).2.1
      exact ih h (by rw [← hs.2.2.2.2.2.2.2.1, ← hs.2.2.2.2.2.2.2.2.1]; exact hQ)
        (riccatiBody_symm hb hQ hP)

theorem matA_congr {c d : LQR} (h : SameProblem c d) : matA d = matA c := by
  obtain ⟨a1, a2, a3, a4, -⟩ := h
  simp [matA, a1, a2, a3, a4]

theorem matB_congr {c d : LQR} (h : SameProblem c d) : matB d = matB c := by
  obtain ⟨-, -, -, -, a5, a6, -⟩ := h
  simp [matB, a5, a6]

theorem matQ_congr {c d : LQR} (h : SameProblem c d) : matQ d = matQ c := by
  obtain ⟨-, -, -, -, -, -, a7, a8, a9, a10, -⟩ := h
  simp [matQ, a7, a8, a9, a10]

theorem riccatiLoop_matP (c : LQR) (hQ : c.Q12 = c.Q21) (n : Nat) :
    (riccatiLoop n (initP c)).map matP
      = riccatiIterSpec (matA c) (matB c) (matQ c) c.R n := by
  induction n with
  | zero => simp [riccatiLoop, riccatiIterSpec, initP, matP, matQ]
  | succ n ih =>
    rw [riccatiLoop_succ_right, riccatiIterSpec, ← ih]
    cases hl : riccatiLoop n (initP c) with
    | none => simp
    | some d =>
      have hsp := (riccatiLoop_some hl).1
      have hsym : d.P12 = d.P21 := riccatiLoop_symm hl hQ hQ
      have hsp' : SameProblem c d := hsp
      simp only [Option.some_bind, Option.map_some']
      rw [riccatiBody_matP d hsym, matA_congr hsp', matB_congr hsp', matQ_congr hsp',
        ← hsp'.2.2.2.2.2.2.2.2.2.2]

theorem computeGain_some {c d : LQR} (h : computeGain c = some d) :
    calcS c ≠ 0 ∧ SameProblem c d ∧
    d.P11 = c.P11 ∧ d.P12 = c.P12 ∧ d.P21 = c.P21 ∧ d.P22 = c.P22 ∧
    d.K1 = 1 / calcS c * (c.B1 * (c.P11 * c.A11 + c.P12 * c.A21)
      + c.B2 * (c.P21 * c.A11 + c.P22 * c.A21)) ∧
    d.K2 = 1 / calcS c * (c.B1 * (c.P11 * c.A12 + c.P12 * c.A22)
      + c.B2 * (c.P21 * c.A12 + c.P22 * c.A22)) := by
  unfold computeGain at h
  simp only [Option.map_eq_some'] at h
  obtain ⟨v, hv, hd⟩ := h
  obtain ⟨hs, rfl⟩ := inv_scalar_eq_some hv
  subst hd
  refine ⟨hs, ?_, rfl, rfl, rfl, rfl, rfl, rfl⟩
  simp [SameProblem]

theorem computeGain_isSome {c : LQR} (h : calcS c ≠ 0) : ∃ d, computeGain c = some d := by
  have h' : c.R + (c.B1 * (c.P11 * c.B1 + c.P12 * c.B2)
      + c.B2 * (c.P21 * c.B1 + c.P22 * c.B2)) ≠ 0 := h
  simp [computeGain, inv_scalar, h']

theorem matP_congr {c d : LQR} (h11 : d.P11 = c.P11) (h12 : d.P12 = c.P12)
    (h21 : d.P21 = c.P21) (h22 : d.P22 = c.P22) : matP d = matP c := by
  simp [matP, h11, h12, h21, h22]

theorem solve_some {c d : LQR} {iters : Int} (h : solveRiccatiIterative c iters = some d) :
    ∃ p, riccatiLoop iters.toNat (initP c) = some p ∧ computeGain p = some d := by
  unfold solveRiccatiIterative at h
  cases hl : riccatiLoop iters.toNat (initP c) with
  | none => simp [hl] at h
  | some p => exact ⟨p, rfl, by simpa [hl] using h⟩

/-- C1: for symmetric `Q` and every iteration count `n`, the matrix `P` that the
loop of `solveRiccatiIterative` leaves after `n` passes (seeded with `Q`) is the
`n`-fold application, from `P₀ = Q`, of the map
`P ↦ Q + Aᵗ P A − (Aᵗ P B) S⁻¹ (Bᵗ P A)`, `S = R + Bᵗ P B`: both sides are
defined for the same inputs (no `S = 0` on the way) and agree.  Whenever the
solver has a result, the `P` it stores is that iterate, and for `n = 0` it is `Q`. -/
theorem riccati_iterates_match_spec (c : LQR) (n : Nat) (hQ : c.Q12 = c.Q21) :
    (riccatiLoop n (initP c)).map matP
        = riccatiIterSpec (matA c) (matB c) (matQ c) c.R n ∧
    (∀ d, solveRiccatiIterative c (n : Int) = some d →
        riccatiIterSpec (matA c) (matB c) (matQ c) c.R n = some (matP d)) ∧
    (∀ d, solveRiccatiIterative c 0 = some d → matP d = matQ c) := by
  refine ⟨riccatiLoop_matP c hQ n, ?_, ?_⟩
  · intro d hd
    obtain ⟨p, hp, hg⟩ := solve_some hd
    obtain ⟨-, -, h11, h12, h21, h22, -⟩ := computeGain_some hg
    rw [Int.toNat_ofNat] at hp
    rw [← riccatiLoop_matP c hQ n, hp, Option.map_some', matP_congr h11 h12 h21 h22]
  · intro d hd
    obtain ⟨p, hp, hg⟩ := solve_some hd
    obtain ⟨-, -, h11, h12, h21, h22, -⟩ := computeGain_some hg
    simp only [Int.toNat_zero, riccatiLoop, Option.some.injEq] at hp
    subst hp
    rw [matP_congr h11 h12 h21 h22]
    simp [matP, matQ, initP]

/-- C1 at the controller of `main` with two iterations. -/
theorem riccati_iterates_match_spec_witness :
    (mainCtrl zeroLQR).Q12 = (mainCtrl zeroLQR).Q21 ∧
    (riccatiLoop 2 (initP (mainCtrl zeroLQR))).map matP
      = riccatiIterSpec (matA (mainCtrl zeroLQR)) (matB (mainCtrl zeroLQR))
          (matQ (mainCtrl zeroLQR)) (mainCtrl zeroLQR).R 2 :=
  ⟨rfl, (riccati_iterates_match_spec (mainCtrl zeroLQR) 2 rfl).1⟩

/-- C2: whenever `solveRiccatiIterative` has a result, the stored gain is
`K = S⁻¹ Bᵗ P A` with `S = R + Bᵗ P B ≠ 0` and `P` the stored final iterate, i.e.
`K1 = (Bᵗ P A)₁ / S` and `K2 = (Bᵗ P A)₂ / S`; it has one whenever the loop has
left an iterate whose `S` is nonzero.  No symmetry of `P` or `Q` is assumed. -/
theorem gain_formula (c : LQR) (iters : Int) :
    (∀ d, solveRiccatiIterative c iters = some d →
      specS (matB c) c.R (matP d) ≠ 0 ∧
      matK d = gainSpec (matA c) (matB c) c.R (matP d) ∧
      d.K1 = ((matB c).transpose * matP d * matA c) 0 0 / specS (matB c) c.R (matP d) ∧
      d.K2 = ((matB c).transpose * matP d * matA c) 0 1 / specS (matB c) c.R (matP d)) ∧
    (∀ p, riccatiLoop iters.toNat (initP c) = some p → calcS p ≠ 0 →
      ∃ d, solveRiccatiIterative c iters = some d ∧ matP d = matP p) := by
  constructor
  · intro d hd
    obtain ⟨p, hp, hg⟩ := solve_some hd
    obtain ⟨hS, hsp, h11, h12, h21, h22, hK1, hK2⟩ := computeGain_some hg
    have hcp : SameProblem c p := (riccatiLoop_some hp).1
    have hA : matA c = matA p := (matA_congr hcp).symm
    have hB : matB c = matB p := (matB_congr hcp).symm
    have hR : c.R = p.R := hcp.2.2.2.2.2.2.2.2.2.2
    have hP : matP d = matP p := matP_congr h11 h12 h21 h22
    have hSp : specS (matB c) c.R (matP d) = calcS p := by
      rw [hB, hR, hP, specS_eq_calcS]
    obtain ⟨a1, a2, a3, a4⟩ := matA_entries p
    obtain ⟨b1, b2⟩ := matB_entries p
    obtain ⟨p1, p2, p3, p4⟩ := matP_entries p
    have e1 : ((matB c).transpose * matP d * matA c) 0 0 = p.B1 * (p.P11 * p.A11 + p.P12 * p.A21)
        + p.B2 * (p.P21 * p.A11 + p.P22 * p.A21) := by
      rw [hA, hB, hP]
      simp only [Matrix.mul_apply, Matrix.transpose_apply, Fin.sum_univ_two,
        a1, a2, a3, a4, b1, b2, p1, p2, p3, p4]
      ring
    have e2 : ((matB c).transpose * matP d * matA c) 0 1 = p.B1 * (p.P11 * p.A12 + p.P12 * p.A22)
        + p.B2 * (p.P21 * p.A12 + p.P22 * p.A22) := by
      rw [hA, hB, hP]
      simp only [Matrix.mul_apply, Matrix.transpose_apply, Fin.sum_univ_two,
        a1, a2, a3, a4, b1, b2, p1, p2, p3, p4]
      ring
    have k1 : d.K1 = ((matB c).transpose * matP d * matA c) 0 0
        / specS (matB c) c.R (matP d) := by
      rw [hK1, e1, hSp]; ring
    have k2 : d.K2 = ((matB c).transpose * matP d * matA c) 0 1
        / specS (matB c) c.R (matP d) := by
      rw [hK2, e2, hSp]; ring
    refine ⟨by rw [hSp]; exact hS, ?_, k1, k2⟩
    obtain ⟨m1, m2⟩ := matK_entries d
    ext i j
    fin_cases i
    fin_cases j
    · simp only [Fin.zero_eta, gainSpec, Matrix.smul_apply, smul_eq_mul, m1, k1]
      ring
    · simp only [Fin.zero_eta, Fin.mk_one, gainSpec, Matrix.smul_apply, smul_eq_mul, m2, k2]
      ring
  · intro p hp hS
    obtain ⟨d, hd⟩ := computeGain_isSome hS
    obtain ⟨-, -, h11, h12, h21, h22, -⟩ := computeGain_some hd
    exact ⟨d, by simp [solveRiccatiIterative, hp, hd], matP_congr h11 h12 h21 h22⟩

theorem solve_mainCtrl_zero :
    solveRiccatiIterative (mainCtrl zeroLQR) 0
      = some { mainCtrl zeroLQR with P11 := 3, P12 := 0, P21 := 0, P22 := 3 / 2,
                                     K1 := 0, K2 := 15 / 28 } := by
  norm_num [solveRiccatiIterative, riccatiLoop, initP, computeGain, inv_scalar, mainCtrl,
    zeroLQR]

/-- C2 at the controller of `main` with zero iterations: `P = Q` and
`K = (0, 15/28)`. -/
theorem gain_formula_witness :
    solveRiccatiIterative (mainCtrl zeroLQR) 0
      = some { mainCtrl zeroLQR with P11 := 3, P12 := 0, P21 := 0, P22 := 3 / 2,
                                     K1 := 0, K2 := 15 / 28 } ∧
    matK { mainCtrl zeroLQR with P11 := 3, P12 := 0, P21 := 0, P22 := 3 / 2,
                                 K1 := 0, K2 := 15 / 28 }
      = gainSpec (matA (mainCtrl zeroLQR)) (matB (mainCtrl zeroLQR)) (mainCtrl zeroLQR).R
          (matP { mainCtrl zeroLQR with P11 := 3, P12 := 0, P21 := 0, P22 := 3 / 2,
                                        K1 := 0, K2 := 15 / 28 }) :=
  ⟨solve_mainCtrl_zero,
    ((gain_formula (mainCtrl zeroLQR) 0).1 _ solve_mainCtrl_zero).2.1⟩

/-! ## The simulation loop -/

theorem controlOf_eq (ctrl : LQR) (delta_min delta_max ey epsi : ℚ) :
    controlOf ctrl delta_min delta_max ey epsi
      = min delta_max (max delta_min (-(ctrl.K1 * ey + ctrl.K2 * epsi))) := by
  unfold controlOf
  simp only
  split_ifs with h1 h2 h2
  · rw [max_eq_left (le_of_lt h1), min_eq_left (le_of_lt h2)]
  · rw [max_eq_left (le_of_lt h1), min_eq_right (not_lt.mp h2)]
  · rw [max_eq_right (not_lt.mp h1), min_eq_left (le_of_lt h2)]
  · rw [max_eq_right (not_lt.mp h1), min_eq_right (not_lt.mp h2)]

theorem controlOf_eq_clampSpec (ctrl : LQR) (delta_min delta_max ey epsi : ℚ)
    (h : delta_min ≤ delta_max) :
    controlOf ctrl delta_min delta_max ey epsi
      = clampSpec (-(ctrl.K1 * ey + ctrl.K2 * epsi)) delta_min delta_max := by
  rw [controlOf_eq, clampSpec]
  rcases le_total delta_max (-(ctrl.K1 * ey + ctrl.K2 * epsi)) with h1 | h1
  · rw [min_eq_left h1, max_eq_right (le_trans h h1), min_eq_left h1, max_eq_right h]
  · rw [min_eq_right h1]
    rcases le_total delta_min (-(ctrl.K1 * ey + ctrl.K2 * epsi)) with h2 | h2
    · rw [max_eq_right h2, min_eq_right h1]
    · rw [max_eq_left h2, min_eq_right h]

theorem simLoop_log (ctrl : LQR) (delta_min delta_max dt : ℚ) (k : Nat) (s : SimState) :
    (simLoop ctrl delta_min delta_max dt k s).log
      = s.log ++ trajFrom ctrl delta_min delta_max dt k s.t s.ey s.epsi := by
  induction k generalizing s with
  | zero => simp [simLoop, trajFrom]
  | succ k ih =>
    rw [simLoop, ih]
    simp [simBody, trajFrom]

theorem simulate_log (ctrl : LQR) (ey0 epsi0 delta_min delta_max dt : ℚ) (steps : Int) :
    (simulate ctrl ey0 epsi0 delta_min delta_max dt steps).log
      = trajFrom ctrl delta_min delta_max dt steps.toNat 0 ey0 epsi0 := by
  simp [simulate, simLoop_log]

theorem trajFrom_length (ctrl : LQR) (delta_min delta_max dt : ℚ) (k : Nat) (t ey epsi : ℚ) :
    (trajFrom ctrl delta_min delta_max dt k t ey epsi).length = k := by
  induction k generalizing t ey epsi with
  | zero => simp [trajFrom]
  | succ k ih => simp [trajFrom, ih]

theorem trajFrom_head (ctrl : LQR) (delta_min delta_max dt : ℚ) (k : Nat) (t ey epsi : ℚ)
    (s : Sample) (h : (trajFrom ctrl delta_min delta_max dt k t ey epsi)[0]? = some s) :
    s.t = t ∧ s.ey = ey ∧ s.epsi = epsi := by
  cases k with
  | zero => simp [trajFrom] at h
  | succ k =>
    simp only [trajFrom, List.getElem?_cons_zero, Option.some.injEq] at h
    subst h
    exact ⟨rfl, rfl, rfl⟩

theorem trajFrom_sample (ctrl : LQR) (delta_min delta_max dt : ℚ) (k : Nat) (t ey epsi : ℚ)
    (j : Nat) (s : Sample)
    (h : (trajFrom ctrl delta_min delta_max dt k t ey epsi)[j]? = some s) :
    s.delta = controlOf ctrl delta_min delta_max s.ey s.epsi ∧ s.t = t + j * dt := by
  induction k generalizing t ey epsi j with
  | zero => simp [trajFrom] at h
  | succ k ih =>
    cases j with
    | zero =>
      simp only [trajFrom, List.getElem?_cons_zero, Option.some.injEq] at h
      subst h
      simp
    | succ j =>
      simp only [trajFrom, List.getElem?_cons_succ] at h
      obtain ⟨h1, h2⟩ := ih _ _ _ _ h
      refine ⟨h1, ?_⟩
      rw [h2]
      push_cast
      ring

theorem trajFrom_next (ctrl : LQR) (delta_min delta_max dt : ℚ) (k : Nat) (t ey epsi : ℚ)
    (j : Nat) (s s' : Sample)
    (h : (trajFrom ctrl delta_min delta_max dt k t ey epsi)[j]? = some s)
    (h' : (trajFrom ctrl delta_min delta_max dt k t ey epsi)[j + 1]? = some s') :
    s'.ey = ctrl.A11 * s.ey + ctrl.A12 * s.epsi + ctrl.B1 * s.delta ∧
    s'.epsi = ctrl.A21 * s.ey + ctrl.A22 * s.epsi + ctrl.B2 * s.delta := by
  induction k generalizing t ey epsi j with
  | zero => simp [trajFrom] at h
  | succ k ih =>
    cases j with
    | zero =>
      simp only [trajFrom, List.getElem?_cons_zero, Option.some.injEq] at h
      simp only [trajFrom, zero_add, List.getElem?_cons_succ] at h'
      obtain ⟨-, g1, g2⟩ := trajFrom_head _ _ _ _ _ _ _ _ _ h'
      subst h
      exact ⟨g1, g2⟩
    | succ j =>
      simp only [trajFrom, List.getElem?_cons_succ] at h h'
      exact ih _ _ _ _ h h'

/-- C3 (amended): the log written by the simulation loop has one row per step;
row 0 holds the initial state; every row holds the pre-update state together
with the control computed from that same state, which is
`min(delta_max, max(delta_min, -(K1*ey + K2*epsi)))` for arbitrary limits and the
clamp of the spec whenever `delta_min ≤ delta_max`; and the state of row `k+1` is
`A x_k + B u_k` with the recorded, saturated `u_k`. -/
theorem trajectory_structure (ctrl : LQR) (ey0 epsi0 delta_min delta_max dt : ℚ)
    (steps : Int) :
    (simulate ctrl ey0 epsi0 delta_min delta_max dt steps).log.length = steps.toNat ∧
    (∀ s : Sample, (simulate ctrl ey0 epsi0 delta_min delta_max dt steps).log[0]? = some s →
      s.ey = ey0 ∧ s.epsi = epsi0) ∧
    (∀ (k : Nat) (s : Sample), (simulate ctrl ey0 epsi0 delta_min delta_max dt steps).log[k]? = some s →
      s.delta = min delta_max (max delta_min (-(ctrl.K1 * s.ey + ctrl.K2 * s.epsi)))) ∧
    (delta_min ≤ delta_max →
      ∀ (k : Nat) (s : Sample), (simulate ctrl ey0 epsi0 delta_min delta_max dt steps).log[k]? = some s →
        s.delta = clampSpec (-(ctrl.K1 * s.ey + ctrl.K2 * s.epsi)) delta_min delta_max) ∧
    (∀ (k : Nat) (s s' : Sample), (simulate ctrl ey0 epsi0 delta_min delta_max dt steps).log[k]? = some s →
      (simulate ctrl ey0 epsi0 delta_min delta_max dt steps).log[k + 1]? = some s' →
      s'.ey = ctrl.A11 * s.ey + ctrl.A12 * s.epsi + ctrl.B1 * s.delta ∧
      s'.epsi = ctrl.A21 * s.ey + ctrl.A22 * s.epsi + ctrl.B2 * s.delta) := by
  rw [simulate_log]
  refine ⟨trajFrom_length _ _ _ _ _ _ _ _, ?_, ?_, ?_, ?_⟩
  · intro s hs
    exact (trajFrom_head _ _ _ _ _ _ _ _ _ hs).2
  · intro k s hs
    rw [(trajFrom_sample _ _ _ _ _ _ _ _ _ _ hs).1, controlOf_eq]
  · intro h k s hs
    rw [(trajFrom_sample _ _ _ _ _ _ _ _ _ _ hs).1, controlOf_eq_clampSpec _ _ _ _ _ h]
  · intro k s s' hs hs'
    exact trajFrom_next _ _ _ _ _ _ _ _ _ _ _ hs hs'

/-- C3, as stated, fails for inverted limits: with `K = 0`, `delta_min = 1`,
`delta_max = -1` the single recorded control is `-1`, while the clamp of the spec
gives `max(1, min(-1, 0)) = 1`. -/
theorem trajectory_clamp_counterexample :
    (simulate zeroLQR 0 0 1 (-1) 1 1).log = [{ t := 0, ey := 0, epsi := 0, delta := -1 }] ∧
    clampSpec (-(zeroLQR.K1 * 0 + zeroLQR.K2 * 0)) 1 (-1) = 1 := by
  constructor
  · norm_num [simulate, simLoop, simBody, controlOf, zeroLQR]
  · norm_num [clampSpec, zeroLQR]

/-- C3 (amended) at a two-step run with ordered limits `[-3/5, 3/5]`. -/
theorem trajectory_structure_witness :
    (-(3 / 5) : ℚ) ≤ 3 / 5 ∧
    ∀ (k : Nat) (s : Sample), (simulate (mainCtrl zeroLQR) 1 (1 / 5) (-(3 / 5)) (3 / 5) (1 / 20) 2).log[k]?
        = some s →
      s.delta = clampSpec (-((mainCtrl zeroLQR).K1 * s.ey + (mainCtrl zeroLQR).K2 * s.epsi))
        (-(3 / 5)) (3 / 5) :=
  ⟨by norm_num,
    (trajectory_structure (mainCtrl zeroLQR) 1 (1 / 5) (-(3 / 5)) (3 / 5) (1 / 20) 2).2.2.2.1
      (by norm_num)⟩

/-- C4 (amended): the control recorded and applied by one simulation step is
`min(control_max, max(control_min, -K x))` for every pair of limits, and equals
`max(control_min, min(control_max, -K x))` whenever `control_min ≤ control_max`. -/
theorem step_control (ctrl : LQR) (delta_min delta_max dt : ℚ) (s : SimState) :
    (simBody ctrl delta_min delta_max dt s).delta
      = min delta_max (max delta_min (-(ctrl.K1 * s.ey + ctrl.K2 * s.epsi))) ∧
    (simBody ctrl delta_min delta_max dt s).log
      = s.log ++ [{ t := s.t, ey := s.ey, epsi := s.epsi,
                    delta := (simBody ctrl delta_min delta_max dt s).delta }] ∧
    (simBody ctrl delta_min delta_max dt s).ey
      = ctrl.A11 * s.ey + ctrl.A12 * s.epsi
        + ctrl.B1 * (simBody ctrl delta_min delta_max dt s).delta ∧
    (simBody ctrl delta_min delta_max dt s).epsi
      = ctrl.A21 * s.ey + ctrl.A22 * s.epsi
        + ctrl.B2 * (simBody ctrl delta_min delta_max dt s).delta ∧
    (delta_min ≤ delta_max →
      (simBody ctrl delta_min delta_max dt s).delta
        = max delta_min (min delta_max (-(ctrl.K1 * s.ey + ctrl.K2 * s.epsi)))) := by
  refine ⟨controlOf_eq _ _ _ _ _, rfl, rfl, rfl, ?_⟩
  intro h
  exact controlOf_eq_clampSpec ctrl delta_min delta_max s.ey s.epsi h

/-- C4, as stated, fails for inverted limits: for `K = 0`, `control_min = 1`,
`control_max = -1` the step records `-1`, but `max(1, min(-1, -K x)) = 1`. -/
theorem step_control_counterexample :
    (simBody zeroLQR 1 (-1) 1 { t := 0, ey := 0, epsi := 0, delta := 0, log := [] }).delta = -1 ∧
    max (1 : ℚ) (min (-1) (-(zeroLQR.K1 * 0 + zeroLQR.K2 * 0))) = 1 := by
  constructor
  · norm_num [simBody, controlOf, zeroLQR]
  · norm_num [zeroLQR]

/-- C4 (amended) at the first step of `main` with gain `K = (1, 2)`. -/
theorem step_control_witness :
    (-(3 / 5) : ℚ) ≤ 3 / 5 ∧
    (simBody { zeroLQR with K1 := 1, K2 := 2 } (-(3 / 5)) (3 / 5) (1 / 20)
        { t := 0, ey := 1, epsi := 1 / 5, delta := 0, log := [] }).delta
      = max (-(3 / 5)) (min (3 / 5)
          (-(({ zeroLQR with K1 := 1, K2 := 2 } : LQR).K1 * 1
            + ({ zeroLQR with K1 := 1, K2 := 2 } : LQR).K2 * (1 / 5)))) :=
  ⟨by norm_num,
    (step_control { zeroLQR with K1 := 1, K2 := 2 } (-(3 / 5)) (3 / 5) (1 / 20)
      { t := 0, ey := 1, epsi := 1 / 5, delta := 0, log := [] }).2.2.2.2 (by norm_num)⟩

/-- C5: with `delta_min ≤ delta_max`, a step whose raw control `-K x` is above
`delta_max` records `delta_max` and moves to `A x + B delta_max`; one whose raw
control is below `delta_min` records `delta_min` and moves to `A x + B delta_min`.
The next state is built from the bound, not from the raw value: whenever `B ≠ 0`
it differs from `A x + B (-K x)`. -/
theorem saturation_correct (ctrl : LQR) (delta_min delta_max dt : ℚ) (s : SimState)
    (h : delta_min ≤ delta_max) :
    (delta_max < -(ctrl.K1 * s.ey + ctrl.K2 * s.epsi) →
      (simBody ctrl delta_min delta_max dt s).log
        = s.log ++ [{ t := s.t, ey := s.ey, epsi := s.epsi, delta := delta_max }] ∧
      (simBody ctrl delta_min delta_max dt s).ey
        = ctrl.A11 * s.ey + ctrl.A12 * s.epsi + ctrl.B1 * delta_max ∧
      (simBody ctrl delta_min delta_max dt s).epsi
        = ctrl.A21 * s.ey + ctrl.A22 * s.epsi + ctrl.B2 * delta_max ∧
      (ctrl.B1 ≠ 0 ∨ ctrl.B2 ≠ 0 →
        ((simBody ctrl delta_min delta_max dt s).ey, (simBody ctrl delta_min delta_max dt s).epsi)
          ≠ (ctrl.A11 * s.ey + ctrl.A12 * s.epsi
              + ctrl.B1 * -(ctrl.K1 * s.ey + ctrl.K2 * s.epsi),
             ctrl.A21 * s.ey + ctrl.A22 * s.epsi
              + ctrl.B2 * -(ctrl.K1 * s.ey + ctrl.K2 * s.epsi)))) ∧
    (-(ctrl.K1 * s.ey + ctrl.K2 * s.epsi) < delta_min →
      (simBody ctrl delta_min delta_max dt s).log
        = s.log ++ [{ t := s.t, ey := s.ey, epsi := s.epsi, delta := delta_min }] ∧
      (simBody ctrl delta_min delta_max dt s).ey
        = ctrl.A11 * s.ey + ctrl.A12 * s.epsi + ctrl.B1 * delta_min ∧
      (simBody ctrl delta_min delta_max dt s).epsi
        = ctrl.A21 * s.ey + ctrl.A22 * s.epsi + ctrl.B2 * delta_min ∧
      (ctrl.B1 ≠ 0 ∨ ctrl.B2 ≠ 0 →
        ((simBody ctrl delta_min delta_max dt s).ey, (simBody ctrl delta_min delta_max dt s).epsi)
          ≠ (ctrl.A11 * s.ey + ctrl.A12 * s.epsi
              + ctrl.B1 * -(ctrl.K1 * s.ey + ctrl.K2 * s.epsi),
             ctrl.A21 * s.ey + ctrl.A22 * s.epsi
              + ctrl.B2 * -(ctrl.K1 * s.ey + ctrl.K2 * s.epsi)))) := by
  constructor
  · intro hhi
    have hc : controlOf ctrl delta_min delta_max s.ey s.epsi = delta_max := by
      rw [controlOf_eq, max_eq_right (le_of_lt (lt_of_le_of_lt h hhi)),
        min_eq_left (le_of_lt hhi)]
    refine ⟨by simp [simBody, hc], by simp [simBody, hc], by simp [simBody, hc], ?_⟩
    intro hB heq
    simp only [simBody, hc, Prod.mk.injEq, add_right_inj] at heq
    obtain ⟨e1, e2⟩ := heq
    rcases hB with hB | hB
    · exact absurd (mul_left_cancel₀ hB e1) (ne_of_lt hhi)
    · exact absurd (mul_left_cancel₀ hB e2) (ne_of_lt hhi)
  · intro hlo
    have hc : controlOf ctrl delta_min delta_max s.ey s.epsi = delta_min := by
      rw [controlOf_eq, max_eq_left (le_of_lt hlo), min_eq_right h]
    refine ⟨by simp [simBody, hc], by simp [simBody, hc], by simp [simBody, hc], ?_⟩
    intro hB heq
    simp only [simBody, hc, Prod.mk.injEq, add_right_inj] at heq
    obtain ⟨e1, e2⟩ := heq
    rcases hB with hB | hB
    · exact absurd (mul_left_cancel₀ hB e1) (ne_of_gt hlo)
    · exact absurd (mul_left_cancel₀ hB e2) (ne_of_gt hlo)

/-- C5 at the plant of `main` with gain `K = (1, 2)` and state `(1, 0.2)`: the raw
control `-1.4` is below `-0.6`, so `-0.6` is recorded and applied. -/
theorem saturation_correct_witness :
    (-(3 / 5) : ℚ) ≤ 3 / 5 ∧
    (simBody { mainCtrl zeroLQR with K1 := 1, K2 := 2 } (-(3 / 5)) (3 / 5) (1 / 20)
        { t := 0, ey := 1, epsi := 1 / 5, delta := 0, log := [] }).log
      = [{ t := 0, ey := 1, epsi := 1 / 5, delta := -(3 / 5) }] :=
  ⟨by norm_num,
    ((saturation_correct { mainCtrl zeroLQR with K1 := 1, K2 := 2 } (-(3 / 5)) (3 / 5) (1 / 20)
      { t := 0, ey := 1, epsi := 1 / 5, delta := 0, log := [] } (by norm_num)).2
        (by norm_num)).1⟩

/-! ## Positive-semidefiniteness along the Riccati recursion -/

theorem calcS_eq_quadForm (c : LQR) :
    calcS c = c.R + quadForm c.P11 c.P12 c.P21 c.P22 c.B1 c.B2 := by
  simp only [calcS, quadForm]

theorem calcS_ge_R {c : LQR} (hP : PsdP c) : c.R ≤ calcS c := by
  rw [calcS_eq_quadForm]
  linarith [hP c.B1 c.B2]

/-- Completing the square: for a symmetric current `P`, the new `P` of one loop
pass satisfies, for every state `x` and control `u`,
`xᵗ Q x + R u² + (A x + B u)ᵗ P (A x + B u) − xᵗ P_new x = S (u + K x)²`
where `K = S⁻¹ Bᵗ P A` is the gain of the current `P`. -/
theorem riccatiBody_square {c d : LQR} (h : riccatiBody c = some d) (hP : c.P12 = c.P21)
    (x1 x2 u : ℚ) :
    quadForm c.Q11 c.Q12 c.Q21 c.Q22 x1 x2 + c.R * u ^ 2
      + quadForm c.P11 c.P12 c.P21 c.P22
          (c.A11 * x1 + c.A12 * x2 + c.B1 * u) (c.A21 * x1 + c.A22 * x2 + c.B2 * u)
      - quadForm d.P11 d.P12 d.P21 d.P22 x1 x2
    = calcS c * (u
        + 1 / calcS c * (c.B1 * (c.P11 * c.A11 + c.P12 * c.A21)
            + c.B2 * (c.P21 * c.A11 + c.P22 * c.A21)) * x1
        + 1 / calcS c * (c.B1 * (c.P11 * c.A12 + c.P12 * c.A22)
            + c.B2 * (c.P21 * c.A12 + c.P22 * c.A22)) * x2) ^ 2 := by
  obtain ⟨hS, -, -, -, h11, h12, h21, h22⟩ := riccatiBody_some h
  rw [h11, h12, h21, h22, hP]
  have hS' : c.R + (c.B1 * (c.P11 * c.B1 + c.P21 * c.B2)
      + c.B2 * (c.P21 * c.B1 + c.P22 * c.B2)) ≠ 0 := by
    have := hS
    simp only [calcS, hP] at this
    exact this
  simp only [calcS, quadForm, hP]
  field_simp
  ring

theorem riccatiBody_psd {c d : LQR} (h : riccatiBody c = some d) (hsym : c.P12 = c.P21)
    (hP : PsdP c) (hQ : PsdQ c) (hR : 0 < c.R) : PsdP d := by
  intro x1 x2
  have hS : 0 < calcS c := lt_of_lt_of_le hR (calcS_ge_R hP)
  have key := riccatiBody_square h hsym x1 x2
    (-(1 / calcS c * (c.B1 * (c.P11 * c.A11 + c.P12 * c.A21)
            + c.B2 * (c.P21 * c.A11 + c.P22 * c.A21)) * x1
        + 1 / calcS c * (c.B1 * (c.P11 * c.A12 + c.P12 * c.A22)
            + c.B2 * (c.P21 * c.A12 + c.P22 * c.A22)) * x2))
  have hz : ∀ a b : ℚ, calcS c * (-(a + b) + a + b) ^ 2 = 0 := by
    intro a b; ring
  rw [hz] at key
  have h1 := hQ x1 x2
  have h2 := hP (c.A11 * x1 + c.A12 * x2 + c.B1 *
      (-(1 / calcS c * (c.B1 * (c.P11 * c.A11 + c.P12 * c.A21)
            + c.B2 * (c.P21 * c.A11 + c.P22 * c.A21)) * x1
        + 1 / calcS c * (c.B1 * (c.P11 * c.A12 + c.P12 * c.A22)
            + c.B2 * (c.P21 * c.A12 + c.P22 * c.A22)) * x2)))
    (c.A21 * x1 + c.A22 * x2 + c.B2 *
      (-(1 / calcS c * (c.B1 * (c.P11 * c.A11 + c.P12 * c.A21)
            + c.B2 * (c.P21 * c.A11 + c.P22 * c.A21)) * x1
        + 1 / calcS c * (c.B1 * (c.P11 * c.A12 + c.P12 * c.A22)
            + c.B2 * (c.P21 * c.A12 + c.P22 * c.A22)) * x2)))
  have h3 : 0 ≤ c.R * (-(1 / calcS c * (c.B1 * (c.P11 * c.A11 + c.P12 * c.A21)
            + c.B2 * (c.P21 * c.A11 + c.P22 * c.A21)) * x1
        + 1 / calcS c * (c.B1 * (c.P11 * c.A12 + c.P12 * c.A22)
            + c.B2 * (c.P21 * c.A12 + c.P22 * c.A22)) * x2)) ^ 2 :=
    mul_nonneg (le_of_lt hR) (sq_nonneg _)
  linarith

/-- Under valid weights every iterate exists, is symmetric and positive-semidefinite. -/
theorem riccatiLoop_valid (c : LQR) (hQs : c.Q12 = c.Q21) (hQ : PsdQ c) (hR : 0 < c.R)
    (k : Nat) :
    ∃ p, riccatiLoop k (initP c) = some p ∧ p.P12 = p.P21 ∧ PsdP p := by
  induction k with
  | zero => exact ⟨initP c, rfl, hQs, hQ⟩
  | succ k ih =>
    obtain ⟨p, hp, hsym, hpsd⟩ := ih
    have hsp : SameProblem c p := (riccatiLoop_some hp).1
    have hRp : 0 < p.R := by rw [← hsp.2.2.2.2.2.2.2.2.2.2]; exact hR
    have hQp : PsdQ p := by
      intro x1 x2
      obtain ⟨-, -, -, -, -, -, q1, q2, q3, q4, -⟩ := hsp
      rw [← q1, ← q2, ← q3, ← q4]
      exact hQ x1 x2
    have hQsp : p.Q12 = p.Q21 := by
      rw [← hsp.2.2.2.2.2.2.2.1, ← hsp.2.2.2.2.2.2.2.2.1]; exact hQs
    have hS : calcS p ≠ 0 := ne_of_gt (lt_of_lt_of_le hRp (calcS_ge_R hpsd))
    obtain ⟨d, hd⟩ := riccatiBody_isSome hS
    refine ⟨d, ?_, riccatiBody_symm hd hQsp hsym, riccatiBody_psd hd hsym hpsd hQp hRp⟩
    rw [riccatiLoop_succ_right, hp, Option.some_bind, hd]

theorem psdQ_mainCtrl (junk : LQR) : PsdQ (mainCtrl junk) := by
  intro x1 x2
  simp only [mainCtrl, quadForm]
  nlinarith [sq_nonneg x1, sq_nonneg x2]

/-- C8 (amended): over exact arithmetic, for symmetric positive-semidefinite `Q`
and `R > 0`, every pass `k < n` of
the loop of `solveRiccatiIterative(n)` and the final gain computation (`k = n`)
is reached with an iterate whose `S = R + Bᵗ P B` satisfies `S ≥ R > 0`, so
`inv_scalar` is never called with `0` and the solver returns a result. -/
theorem riccati_inverse_well_defined (c : LQR) (n : Nat) (hQs : c.Q12 = c.Q21)
    (hQ : PsdQ c) (hR : 0 < c.R) :
    (∀ k : Nat, k ≤ n → ∃ p, riccatiLoop k (initP c) = some p ∧
      c.R ≤ calcS p ∧ 0 < calcS p ∧ inv_scalar (calcS p) = some (1 / calcS p)) ∧
    (∃ d, solveRiccatiIterative c (n : Int) = some d) := by
  have step : ∀ k : Nat, ∃ p, riccatiLoop k (initP c) = some p ∧
      c.R ≤ calcS p ∧ 0 < calcS p ∧ inv_scalar (calcS p) = some (1 / calcS p) := by
    intro k
    obtain ⟨p, hp, -, hpsd⟩ := riccatiLoop_valid c hQs hQ hR k
    have hsp : SameProblem c p := (riccatiLoop_some hp).1
    have hRp : c.R = p.R := hsp.2.2.2.2.2.2.2.2.2.2
    have hge : c.R ≤ calcS p := by rw [hRp]; exact calcS_ge_R hpsd
    have hpos : 0 < calcS p := lt_of_lt_of_le hR hge
    exact ⟨p, hp, hge, hpos, inv_scalar_of_ne (ne_of_gt hpos)⟩
  refine ⟨fun k _ => step k, ?_⟩
  obtain ⟨p, hp, -, hpos, -⟩ := step n
  obtain ⟨d, hd⟩ := computeGain_isSome (ne_of_gt hpos)
  exact ⟨d, by simp [solveRiccatiIterative, hp, hd]⟩

/-- C8 (amended) at the weights and iteration count of `main`, over exact
arithmetic. -/
theorem riccati_inverse_well_defined_witness :
    (mainCtrl zeroLQR).Q12 = (mainCtrl zeroLQR).Q21 ∧ PsdQ (mainCtrl zeroLQR) ∧
    0 < (mainCtrl zeroLQR).R ∧
    ∃ d, solveRiccatiIterative (mainCtrl zeroLQR) ((800 : Nat) : Int) = some d :=
  ⟨rfl, psdQ_mainCtrl zeroLQR, by norm_num [mainCtrl],
    (riccati_inverse_well_defined (mainCtrl zeroLQR) 800 rfl (psdQ_mainCtrl zeroLQR)
      (by norm_num [mainCtrl])).2⟩

/-! ## The solver does not read `P` or `K` -/

theorem riccatiBody_setK (c : LQR) (a b : ℚ) :
    riccatiBody { c with K1 := a, K2 := b }
      = (riccatiBody c).map fun d => { d with K1 := a, K2 := b } := by
  simp only [riccatiBody, Option.map_map]
  rfl

theorem riccatiLoop_setK (k : Nat) (c : LQR) (a b : ℚ) :
    riccatiLoop k { c with K1 := a, K2 := b }
      = (riccatiLoop k c).map fun d => { d with K1 := a, K2 := b } := by
  induction k generalizing c with
  | zero => simp [riccatiLoop]
  | succ k ih =>
    rw [riccatiLoop, riccatiLoop, riccatiBody_setK]
    cases hb : riccatiBody c with
    | none => simp
    | some d => simp only [Option.map_some', Option.some_bind]; exact ih d

theorem computeGain_setK (c : LQR) (a b : ℚ) :
    computeGain { c with K1 := a, K2 := b } = computeGain c := by
  simp only [computeGain]

theorem initP_of_sameProblem {c₁ c₂ : LQR} (h : SameProblem c₁ c₂) :
    initP c₂ = { initP c₁ with K1 := c₂.K1, K2 := c₂.K2 } := by
  obtain ⟨a1, a2, a3, a4, a5, a6, a7, a8, a9, a10, a11⟩ := h
  cases c₁
  cases c₂
  simp only [initP] at *
  simp [a1, a2, a3, a4, a5, a6, a7, a8, a9, a10, a11]

theorem sameProblem_mainCtrl (j₁ j₂ : LQR) : SameProblem (mainCtrl j₁) (mainCtrl j₂) := by
  simp [SameProblem, mainCtrl]

/-- C9: the result of `solveRiccatiIterative` depends only on `A`, `B`, `Q`, `R`
and the iteration count.  Two structs that agree on those fields, whatever their
`P11..P22`, `K1`, `K2` hold on entry, end identical (in particular with the same
`P` and `K`, or both without a value), for every iteration count including
`n ≤ 0`; so the uninitialised `P`, `K` of the local struct in `main` do not
matter. -/
theorem solver_pure :
    (∀ (c₁ c₂ : LQR) (iters : Int), SameProblem c₁ c₂ →
      solveRiccatiIterative c₁ iters = solveRiccatiIterative c₂ iters) ∧
    (∀ (j₁ j₂ : LQR) (iters : Int),
      solveRiccatiIterative (mainCtrl j₁) iters = solveRiccatiIterative (mainCtrl j₂) iters) := by
  have main : ∀ (c₁ c₂ : LQR) (iters : Int), SameProblem c₁ c₂ →
      solveRiccatiIterative c₁ iters = solveRiccatiIterative c₂ iters := by
    intro c₁ c₂ iters h
    unfold solveRiccatiIterative
    have e := riccatiLoop_setK iters.toNat (initP c₁) c₂.K1 c₂.K2
    rw [initP_of_sameProblem h, e]
    cases hl : riccatiLoop iters.toNat (initP c₁) with
    | none => simp
    | some p =>
      simp only [Option.map_some', Option.some_bind]
      exact (computeGain_setK p c₂.K1 c₂.K2).symm
  exact ⟨main, fun j₁ j₂ iters => main _ _ iters (sameProblem_mainCtrl j₁ j₂)⟩

/-- C9 at two structs that differ in every `P` and `K` field, with a negative
iteration count. -/
theorem solver_pure_witness :
    SameProblem (mainCtrl zeroLQR)
      { mainCtrl zeroLQR with P11 := 7, P12 := -1, P21 := 5, P22 := 2, K1 := 9, K2 := -4 } ∧
    solveRiccatiIterative (mainCtrl zeroLQR) (-3)
      = solveRiccatiIterative
          { mainCtrl zeroLQR with P11 := 7, P12 := -1, P21 := 5, P22 := 2, K1 := 9, K2 := -4 }
          (-3) :=
  ⟨by simp [SameProblem], solver_pure.1 _ _ (-3) (by simp [SameProblem])⟩

/-! ## Monotonicity of the Riccati map and the scenario of `main` -/

/-- The new `P` of a loop pass dominates `Q`. -/
theorem riccatiBody_ge_Q {c d : LQR} (h : riccatiBody c = some d) (hsym : c.P12 = c.P21)
    (hP : PsdP c) (hR : 0 < c.R) (x1 x2 : ℚ) :
    quadForm c.Q11 c.Q12 c.Q21 c.Q22 x1 x2 ≤ quadForm d.P11 d.P12 d.P21 d.P22 x1 x2 := by
  have key := riccatiBody_square h hsym x1 x2
    (-(1 / calcS c * (c.B1 * (c.P11 * c.A11 + c.P12 * c.A21)
            + c.B2 * (c.P21 * c.A11 + c.P22 * c.A21)) * x1
        + 1 / calcS c * (c.B1 * (c.P11 * c.A12 + c.P12 * c.A22)
            + c.B2 * (c.P21 * c.A12 + c.P22 * c.A22)) * x2))
  have hz : ∀ a b : ℚ, calcS c * (-(a + b) + a + b) ^ 2 = 0 := by
    intro a b; ring
  rw [hz] at key
  have h2 := hP (c.A11 * x1 + c.A12 * x2 + c.B1 *
      (-(1 / calcS c * (c.B1 * (c.P11 * c.A11 + c.P12 * c.A21)
            + c.B2 * (c.P21 * c.A11 + c.P22 * c.A21)) * x1
        + 1 / calcS c * (c.B1 * (c.P11 * c.A12 + c.P12 * c.A22)
            + c.B2 * (c.P21 * c.A12 + c.P22 * c.A22)) * x2)))
    (c.A21 * x1 + c.A22 * x2 + c.B2 *
      (-(1 / calcS c * (c.B1 * (c.P11 * c.A11 + c.P12 * c.A21)
            + c.B2 * (c.P21 * c.A11 + c.P22 * c.A21)) * x1
        + 1 / calcS c * (c.B1 * (c.P11 * c.A12 + c.P12 * c.A22)
            + c.B2 * (c.P21 * c.A12 + c.P22 * c.A22)) * x2)))
  have h3 : 0 ≤ c.R * (-(1 / calcS c * (c.B1 * (c.P11 * c.A11 + c.P12 * c.A21)
            + c.B2 * (c.P21 * c.A11 + c.P22 * c.A21)) * x1
        + 1 / calcS c * (c.B1 * (c.P11 * c.A12 + c.P12 * c.A22)
            + c.B2 * (c.P21 * c.A12 + c.P22 * c.A22)) * x2)) ^ 2 :=
    mul_nonneg (le_of_lt hR) (sq_nonneg _)
  linarith

/-- The Riccati map is monotone: if `P ≤ P'` (both symmetric, same problem, and
`S ≥ 0` at `P`), then the new matrices of one loop pass are ordered the same way. -/
theorem riccatiBody_mono {c c' d d' : LQR} (h : riccatiBody c = some d)
    (h' : riccatiBody c' = some d') (hsp : SameProblem c c')
    (hsym : c.P12 = c.P21) (hsym' : c'.P12 = c'.P21) (hS : 0 ≤ calcS c)
    (hle : ∀ x1 x2 : ℚ, quadForm c.P11 c.P12 c.P21 c.P22 x1 x2
      ≤ quadForm c'.P11 c'.P12 c'.P21 c'.P22 x1 x2) (x1 x2 : ℚ) :
    quadForm d.P11 d.P12 d.P21 d.P22 x1 x2 ≤ quadForm d'.P11 d'.P12 d'.P21 d'.P22 x1 x2 := by
  have key' := riccatiBody_square h' hsym' x1 x2
    (-(1 / calcS c' * (c'.B1 * (c'.P11 * c'.A11 + c'.P12 * c'.A21)
            + c'.B2 * (c'.P21 * c'.A11 + c'.P22 * c'.A21)) * x1
        + 1 / calcS c' * (c'.B1 * (c'.P11 * c'.A12 + c'.P12 * c'.A22)
            + c'.B2 * (c'.P21 * c'.A12 + c'.P22 * c'.A22)) * x2))
  have hz : ∀ a b : ℚ, calcS c' * (-(a + b) + a + b) ^ 2 = 0 := by
    intro a b; ring
  rw [hz] at key'
  have key := riccatiBody_square h hsym x1 x2
    (-(1 / calcS c' * (c'.B1 * (c'.P11 * c'.A11 + c'.P12 * c'.A21)
            + c'.B2 * (c'.P21 * c'.A11 + c'.P22 * c'.A21)) * x1
        + 1 / calcS c' * (c'.B1 * (c'.P11 * c'.A12 + c'.P12 * c'.A22)
            + c'.B2 * (c'.P21 * c'.A12 + c'.P22 * c'.A22)) * x2))
  obtain ⟨a1, a2, a3, a4, a5, a6, a7, a8, a9, a10, a11⟩ := hsp
  rw [← a1, ← a2, ← a3, ← a4, ← a5, ← a6, ← a7, ← a8, ← a9, ← a10, ← a11] at key'
  have hsq := mul_nonneg hS (sq_nonneg
    (-(1 / calcS c' * (c.B1 * (c'.P11 * c.A11 + c'.P12 * c.A21)
            + c.B2 * (c'.P21 * c.A11 + c'.P22 * c.A21)) * x1
        + 1 / calcS c' * (c.B1 * (c'.P11 * c.A12 + c'.P12 * c.A22)
            + c.B2 * (c'.P21 * c.A12 + c'.P22 * c.A22)) * x2)
      + 1 / calcS c * (c.B1 * (c.P11 * c.A11 + c.P12 * c.A21)
            + c.B2 * (c.P21 * c.A11 + c.P22 * c.A21)) * x1
      + 1 / calcS c * (c.B1 * (c.P11 * c.A12 + c.P12 * c.A22)
            + c.B2 * (c.P21 * c.A12 + c.P22 * c.A22)) * x2))
  have hl := hle (c.A11 * x1 + c.A12 * x2 + c.B1 *
      (-(1 / calcS c' * (c.B1 * (c'.P11 * c.A11 + c'.P12 * c.A21)
            + c.B2 * (c'.P21 * c.A11 + c'.P22 * c.A21)) * x1
        + 1 / calcS c' * (c.B1 * (c'.P11 * c.A12 + c'.P12 * c.A22)
            + c.B2 * (c'.P21 * c.A12 + c'.P22 * c.A22)) * x2)))
    (c.A21 * x1 + c.A22 * x2 + c.B2 *
      (-(1 / calcS c' * (c.B1 * (c'.P11 * c.A11 + c'.P12 * c.A21)
            + c.B2 * (c'.P21 * c.A11 + c'.P22 * c.A21)) * x1
        + 1 / calcS c' * (c.B1 * (c'.P11 * c.A12 + c'.P12 * c.A22)
            + c.B2 * (c'.P21 * c.A12 + c'.P22 * c.A22)) * x2)))
  rw [← a1, ← a2, ← a3, ← a4, ← a5, ← a6] at key
  linarith

/-- Entries of a symmetric positive-semidefinite 2x2 matrix: `m12² ≤ m11 m22`
when `m22 > 0`. -/
theorem psd_offdiag_sq {m11 m12 m22 : ℚ} (h : ∀ x1 x2 : ℚ, 0 ≤ quadForm m11 m12 m12 m22 x1 x2)
    (h22 : 0 < m22) : m12 ^ 2 ≤ m11 * m22 := by
  have := h m22 (-m12)
  simp only [quadForm] at this
  have e : m22 * (m11 * m22 + m12 * -m12) + -m12 * (m12 * m22 + m22 * -m12)
      = m22 * (m11 * m22 - m12 ^ 2) := by ring
  rw [e] at this
  have := nonneg_of_mul_nonneg_right this h22
  linarith

/-- A symmetric 2x2 matrix with positive corner and nonnegative determinant is
positive-semidefinite. -/
theorem psd_of_minors (m11 m12 m22 : ℚ) (h11 : 0 < m11) (hdet : 0 ≤ m11 * m22 - m12 ^ 2)
    (x1 x2 : ℚ) : 0 ≤ quadForm m11 m12 m12 m22 x1 x2 := by
  have e : m11 * quadForm m11 m12 m12 m22 x1 x2
      = (m11 * x1 + m12 * x2) ^ 2 + (m11 * m22 - m12 ^ 2) * x2 ^ 2 := by
    simp only [quadForm]; ring
  have h1 : 0 ≤ m11 * quadForm m11 m12 m12 m22 x1 x2 := by
    rw [e]
    exact add_nonneg (sq_nonneg _) (mul_nonneg hdet (sq_nonneg _))
  exact nonneg_of_mul_nonneg_right h1 h11

/-- Jury's criterion for a real monic quadratic: if `1 + a + b > 0`,
`1 − a + b > 0` and `b < 1`, every complex root of `z² + a z + b` lies strictly
inside the unit circle. -/
theorem quadratic_roots_in_unit_disc (a b : ℝ) (h1 : 0 < 1 + a + b) (h2 : 0 < 1 - a + b)
    (h3 : b < 1) (z : ℂ) (hz : z ^ 2 + (a : ℂ) * z + (b : ℂ) = 0) : Complex.abs z < 1 := by
  have hre := congrArg Complex.re hz
  have him := congrArg Complex.im hz
  simp only [pow_two, Complex.add_re, Complex.mul_re, Complex.ofReal_re, Complex.ofReal_im,
    Complex.zero_re, Complex.add_im, Complex.mul_im, Complex.zero_im, zero_mul, sub_zero,
    add_zero] at hre him
  have hn : Complex.normSq z < 1 := by
    rw [Complex.normSq_apply]
    by_cases hy : z.im = 0
    · rw [hy] at hre
      rw [hy]
      simp only [mul_zero, sub_zero, add_zero] at hre ⊢
      by_contra hcon
      push_neg at hcon
      rcases le_or_lt 1 z.re with hx | hx
      · nlinarith [mul_nonneg (sub_nonneg.mpr hx) (sub_nonneg.mpr (le_trans (le_of_lt h3) hx))]
      · have hx' : z.re ≤ -1 := by nlinarith
        nlinarith [mul_nonneg (show 0 ≤ -1 - z.re by linarith)
          (show 0 ≤ -z.re - b by linarith)]
    · have hx : 2 * z.re + a = 0 := by
        have : z.im * (2 * z.re + a) = 0 := by linarith
        rcases mul_eq_zero.mp this with h | h
        · exact absurd h hy
        · exact h
      nlinarith
  have hsq : Complex.abs z ^ 2 < 1 := by
    rw [Complex.sq_abs]; exact hn
  have hnn : 0 ≤ Complex.abs z := by positivity
  nlinarith

theorem mainCtrl_fields {junk p : LQR} (h : SameProblem (mainCtrl junk) p) :
    p.A11 = 1 ∧ p.A12 = 1 / 2 ∧ p.A21 = 0 ∧ p.A22 = 1 ∧ p.B1 = 0 ∧ p.B2 = 1 / 5 ∧
    p.Q11 = 3 ∧ p.Q12 = 0 ∧ p.Q21 = 0 ∧ p.Q22 = 3 / 2 ∧ p.R = 1 / 2 := by
  obtain ⟨a1, a2, a3, a4, a5, a6, a7, a8, a9, a10, a11⟩ := h
  simp only [mainCtrl] at a1 a2 a3 a4 a5 a6 a7 a8 a9 a10 a11
  refine ⟨a1.symm, ?_, a3.symm, a4.symm, a5.symm, ?_, a7.symm, a8.symm, a9.symm, a10.symm,
    a11.symm⟩
  · rw [← a2]; norm_num
  · rw [← a6]; norm_num

theorem mainInv_init (junk : LQR) : MainInv (initP (mainCtrl junk)) := by
  refine ⟨rfl, psdQ_mainCtrl junk, ?_, ?_, ?_, ?_⟩
  · intro x1 x2
    have := psd_of_minors 11 10 (29 / 2) (by norm_num) (by norm_num)
      x1 x2
    simp only [initP, mainCtrl, quadForm] at this ⊢
    linarith
  · simp [initP, mainCtrl]
  · simp [initP, mainCtrl]
  · simp [initP, mainCtrl]

/-- In the scenario of `main` one loop pass keeps the invariant and makes the
off-diagonal entry of `P` strictly positive. -/
theorem mainInv_step (junk : LQR) {p : LQR} (hsp : SameProblem (mainCtrl junk) p) (hI : MainInv p) :
    ∃ d, riccatiBody p = some d ∧ MainInv d ∧ 0 < d.P21 := by
  obtain ⟨hA11, hA12, hA21, hA22, hB1, hB2, hQ11, hQ12, hQ21, hQ22, hR⟩ := mainCtrl_fields hsp
  obtain ⟨hsym, hpsd, hup, h11, h22, hq⟩ := hI
  have hRpos : 0 < p.R := by rw [hR]; norm_num
  have hQsym : p.Q12 = p.Q21 := by rw [hQ12, hQ21]
  have hQpsd : PsdQ p := by
    intro x1 x2
    rw [hQ11, hQ12, hQ21, hQ22]
    exact psdQ_mainCtrl junk x1 x2
  have hSge : p.R ≤ calcS p := calcS_ge_R hpsd
  have hSpos : 0 < calcS p := lt_of_lt_of_le hRpos hSge
  obtain ⟨d, hd⟩ := riccatiBody_isSome (ne_of_gt hSpos)
  -- the dominating matrix `U` and its image under the map
  have hU : calcS { p with P11 := 14, P12 := 10, P21 := 10, P22 := 16 } = 57 / 50 := by
    simp only [calcS, hB1, hB2, hR]; norm_num
  obtain ⟨e, he⟩ := riccatiBody_isSome
    (c := { p with P11 := 14, P12 := 10, P21 := 10, P22 := 16 }) (by rw [hU]; norm_num)
  obtain ⟨-, -, -, -, e11, e12, e21, e22⟩ := riccatiBody_some he
  rw [hU] at e11 e12 e21 e22
  simp only [hA11, hA12, hA21, hA22, hB1, hB2, hQ11, hQ12, hQ21, hQ22] at e11 e12 e21 e22
  have hmono := riccatiBody_mono hd he (by simp [SameProblem]) hsym rfl (le_of_lt hSpos) hup
  have hup' : ∀ x1 x2 : ℚ, quadForm d.P11 d.P12 d.P21 d.P22 x1 x2
      ≤ quadForm 14 10 10 16 x1 x2 := by
    intro x1 x2
    have m1 := hmono x1 x2
    have m2 := psd_of_minors (29 / 57) (7 / 19) (9 / 19) (by norm_num)
      (by norm_num) x1 x2
    rw [e11, e12, e21, e22] at m1
    simp only [quadForm] at m1 m2 ⊢
    linarith
  have hge := riccatiBody_ge_Q hd hsym hpsd hRpos
  have hd11 : 3 ≤ d.P11 := by
    have := hge 1 0
    simp only [quadForm, hQ11, hQ12, hQ21, hQ22] at this
    linarith
  have hd22 : 3 / 2 ≤ d.P22 := by
    have := hge 0 1
    simp only [quadForm, hQ11, hQ12, hQ21, hQ22] at this
    linarith
  -- bounds on the entries of the current `P`
  have hp11 : p.P11 ≤ 14 := by
    have := hup 1 0
    simp only [quadForm] at this
    linarith
  have hp22 : p.P22 ≤ 16 := by
    have := hup 0 1
    simp only [quadForm] at this
    linarith
  have hq2 : p.P21 ^ 2 ≤ p.P11 * p.P22 := by
    apply psd_offdiag_sq _ (by linarith)
    intro x1 x2
    have := hpsd x1 x2
    rw [hsym] at this
    exact this
  have hq15 : p.P21 ≤ 15 := by nlinarith
  have hSval : calcS p = 1 / 2 + p.P22 / 25 := by
    simp only [calcS, hB1, hB2, hR]; ring
  obtain ⟨-, -, -, -, -, -, d21, -⟩ := riccatiBody_some hd
  have hd21 : d.P21 = (calcS p * p.P11 / 2 + p.P21 * (25 - p.P21) / 50) / calcS p := by
    rw [d21, hsym]
    simp only [hA11, hA12, hA21, hA22, hB1, hB2, hQ21]
    field_simp
    rw [hSval]
    ring
  have hd21pos : 0 < d.P21 := by
    rw [hd21]
    apply div_pos _ hSpos
    have t1 : 0 < calcS p * p.P11 / 2 := by positivity
    have t2 : 0 ≤ p.P21 * (25 - p.P21) / 50 :=
      div_nonneg (mul_nonneg hq (by linarith)) (by norm_num)
    linarith
  exact ⟨d, hd, ⟨riccatiBody_symm hd hQsym hsym, riccatiBody_psd hd hsym hpsd hQpsd hRpos,
    hup', hd11, hd22, le_of_lt hd21pos⟩, hd21pos⟩

theorem mainInv_loop (junk : LQR) (k : Nat) :
    ∃ p, riccatiLoop k (initP (mainCtrl junk)) = some p ∧ MainInv p := by
  induction k with
  | zero => exact ⟨_, rfl, mainInv_init junk⟩
  | succ k ih =>
    obtain ⟨p, hp, hI⟩ := ih
    obtain ⟨d, hd, hI', -⟩ := mainInv_step junk (riccatiLoop_some hp).1 hI
    exact ⟨d, by rw [riccatiLoop_succ_right, hp, Option.some_bind, hd], hI'⟩

theorem closedLoop_entries (c : LQR) :
    closedLoop c 0 0 = c.A11 - c.B1 * c.K1 ∧ closedLoop c 0 1 = c.A12 - c.B1 * c.K2 ∧
    closedLoop c 1 0 = c.A21 - c.B2 * c.K1 ∧ closedLoop c 1 1 = c.A22 - c.B2 * c.K2 := by
  obtain ⟨a1, a2, a3, a4⟩ := matA_entries c
  obtain ⟨b1, b2⟩ := matB_entries c
  obtain ⟨k1, k2⟩ := matK_entries c
  refine ⟨?_, ?_, ?_, ?_⟩ <;>
    simp only [closedLoop, Matrix.sub_apply, Matrix.mul_apply, Finset.univ_unique,
      Fin.default_eq_zero, Finset.sum_singleton, a1, a2, a3, a4, b1, b2, k1, k2]

/-- C10: in the scenario of `main` (`A = [[1, 1/2], [0, 1]]`, `B = (0, 1/5)`,
`Q = diag(3, 3/2)`, `R = 1/2`, 800 iterations, any initial content of `P`, `K`)
the solver returns a gain with `0 < K1 < 2 K2` and `4 K2 − K1 < 40`, and every
complex eigenvalue of the unsaturated closed-loop matrix `A − B K` (every root of
its characteristic polynomial) has modulus strictly less than 1. -/
theorem main_gain_stabilizing (junk : LQR) :
    ∃ d, solveRiccatiIterative (mainCtrl junk) 800 = some d ∧
      0 < d.K1 ∧ d.K1 < 2 * d.K2 ∧ 4 * d.K2 - d.K1 < 40 ∧
      ∀ z : ℂ, (Matrix.scalar (Fin 2) z
          - (closedLoop d).map (fun q : ℚ => (q : ℂ))).det = 0 → Complex.abs z < 1 := by
  obtain ⟨p₀, hp₀, hI₀⟩ := mainInv_loop junk 799
  obtain ⟨p, hp, hI, hqpos⟩ := mainInv_step junk (riccatiLoop_some hp₀).1 hI₀
  have hloop : riccatiLoop 800 (initP (mainCtrl junk)) = some p := by
    rw [riccatiLoop_succ_right, hp₀, Option.some_bind, hp]
  have hsp : SameProblem (mainCtrl junk) p := (riccatiLoop_some hloop).1
  obtain ⟨hA11, hA12, hA21, hA22, hB1, hB2, -, -, -, -, hR⟩ := mainCtrl_fields hsp
  obtain ⟨hsym, hpsd, hup, h11, h22, hq⟩ := hI
  have hSval : calcS p = 1 / 2 + p.P22 / 25 := by
    simp only [calcS, hB1, hB2, hR]; ring
  have hSpos : 0 < calcS p := by rw [hSval]; linarith
  obtain ⟨d, hd⟩ := computeGain_isSome (ne_of_gt hSpos)
  obtain ⟨-, hpd, -, -, -, -, hK1, hK2⟩ := computeGain_some hd
  obtain ⟨dA11, dA12, dA21, dA22, dB1, dB2, -, -, -, -, -⟩ :=
    mainCtrl_fields (SameProblem.trans hsp hpd)
  simp only [hA11, hA12, hA21, hA22, hB1, hB2] at hK1 hK2
  have hp11 : p.P11 ≤ 14 := by
    have := hup 1 0
    simp only [quadForm] at this
    linarith
  have hp22 : p.P22 ≤ 16 := by
    have := hup 0 1
    simp only [quadForm] at this
    linarith
  have hq2 : p.P21 ^ 2 ≤ p.P11 * p.P22 := by
    apply psd_offdiag_sq _ (by linarith)
    intro x1 x2
    have := hpsd x1 x2
    rw [hsym] at this
    exact this
  have hq15 : p.P21 ≤ 15 := by nlinarith
  have k1 : d.K1 = p.P21 / 5 / calcS p := by
    rw [hK1]; ring
  have k2 : d.K2 = (p.P21 / 2 + p.P22) / 5 / calcS p := by
    rw [hK2]; ring
  have hK1pos : 0 < d.K1 := by
    rw [k1]; exact div_pos (div_pos hqpos (by norm_num)) hSpos
  have hK12 : d.K1 < 2 * d.K2 := by
    have e : 2 * d.K2 - d.K1 = 2 * p.P22 / 5 / calcS p := by
      rw [k1, k2]; ring
    have : 0 < 2 * p.P22 / 5 / calcS p :=
      div_pos (div_pos (by linarith) (by norm_num)) hSpos
    linarith
  have hK40 : 4 * d.K2 - d.K1 < 40 := by
    have e : 4 * d.K2 - d.K1 = (p.P21 / 5 + 4 * p.P22 / 5) / calcS p := by
      rw [k1, k2]; ring
    rw [e, div_lt_iff₀ hSpos, hSval]
    linarith
  have hsolve : solveRiccatiIterative (mainCtrl junk) 800 = some d := by
    have : (800 : Int).toNat = 800 := rfl
    simp only [solveRiccatiIterative, this, hloop, Option.some_bind, hd]
  refine ⟨d, hsolve, hK1pos, hK12, hK40, ?_⟩
  intro z hz
  obtain ⟨c1, c2, c3, c4⟩ := closedLoop_entries d
  rw [dA11, dB1] at c1
  rw [dA12, dB1] at c2
  rw [dA21, dB2] at c3
  rw [dA22, dB2] at c4
  rw [Matrix.det_fin_two] at hz
  simp only [Matrix.sub_apply, Matrix.scalar_apply, Matrix.map_apply, Matrix.diagonal_apply_eq,
    Matrix.diagonal_apply_ne, ne_eq, zero_ne_one, one_ne_zero, not_false_eq_true,
    c1, c2, c3, c4] at hz
  apply quadratic_roots_in_unit_disc (-(2 - (d.K2 : ℝ) / 5)) (1 - (d.K2 : ℝ) / 5 + (d.K1 : ℝ) / 10)
  · have : (0 : ℝ) < (d.K1 : ℝ) := by exact_mod_cast hK1pos
    linarith
  · have : (4 * (d.K2 : ℝ) - (d.K1 : ℝ)) < 40 := by exact_mod_cast hK40
    linarith
  · have : (d.K1 : ℝ) < 2 * (d.K2 : ℝ) := by exact_mod_cast hK12
    linarith
  · rw [← hz]
    push_cast
    ring

/-! ## Absence of validation -/

theorem riccatiBody_eq_none_iff (c : LQR) : riccatiBody c = none ↔ calcS c = 0 := by
  constructor
  · intro h
    by_contra hS
    obtain ⟨d, hd⟩ := riccatiBody_isSome hS
    rw [h] at hd
    exact Option.noConfusion hd
  · exact riccatiBody_eq_none

theorem computeGain_eq_none_iff (c : LQR) : computeGain c = none ↔ calcS c = 0 := by
  constructor
  · intro h
    by_contra hS
    obtain ⟨d, hd⟩ := computeGain_isSome hS
    rw [h] at hd
    exact Option.noConfusion hd
  · intro h
    have h' : c.R + (c.B1 * (c.P11 * c.B1 + c.P12 * c.B2)
        + c.B2 * (c.P21 * c.B1 + c.P22 * c.B2)) = 0 := h
    simp [computeGain, h', inv_scalar]

/-- The loop has no value after `n` passes exactly when some earlier pass met
`S = 0`. -/
theorem riccatiLoop_eq_none_iff (c : LQR) (n : Nat) :
    riccatiLoop n c = none ↔
      ∃ k, k < n ∧ ∃ p, riccatiLoop k c = some p ∧ calcS p = 0 := by
  induction n with
  | zero => simp [riccatiLoop]
  | succ n ih =>
    rw [riccatiLoop_succ_right]
    cases hl : riccatiLoop n c with
    | none =>
      simp only [Option.none_bind, true_iff]
      obtain ⟨k, hk, p, hp, hS⟩ := ih.mp hl
      exact ⟨k, Nat.lt_succ_of_lt hk, p, hp, hS⟩
    | some q =>
      simp only [Option.some_bind]
      rw [riccatiBody_eq_none_iff]
      constructor
      · intro hS
        exact ⟨n, Nat.lt_succ_self n, q, hl, hS⟩
      · rintro ⟨k, hk, p, hp, hS⟩
        rcases Nat.lt_succ_iff_lt_or_eq.mp hk with hlt | heq
        · have : riccatiLoop n c = none := ih.mpr ⟨k, hlt, p, hp, hS⟩
          rw [hl] at this
          exact Option.noConfusion this
        · subst heq
          rw [hl] at hp
          cases hp
          exact hS

theorem solve_eq_none_iff (c : LQR) (n : Nat) :
    solveRiccatiIterative c (n : Int) = none ↔
      ∃ k, k ≤ n ∧ ∃ p, riccatiLoop k (initP c) = some p ∧ calcS p = 0 := by
  unfold solveRiccatiIterative
  rw [Int.toNat_ofNat]
  cases hl : riccatiLoop n (initP c) with
  | none =>
    simp only [Option.none_bind, true_iff]
    obtain ⟨k, hk, p, hp, hS⟩ := (riccatiLoop_eq_none_iff (initP c) n).mp hl
    exact ⟨k, le_of_lt hk, p, hp, hS⟩
  | some q =>
    simp only [Option.some_bind]
    rw [computeGain_eq_none_iff]
    constructor
    · intro hS
      exact ⟨n, le_refl n, q, hl, hS⟩
    · rintro ⟨k, hk, p, hp, hS⟩
      rcases Nat.lt_or_eq_of_le hk with hlt | heq
      · have : riccatiLoop n (initP c) = none :=
          (riccatiLoop_eq_none_iff (initP c) n).mpr ⟨k, hlt, p, hp, hS⟩
        rw [hl] at this
        exact Option.noConfusion this
      · subst heq
        rw [hl] at hp
        cases hp
        exact hS

/-- C11 (amended): the solver validates nothing and has no error result.  For
every `R`, also `R ≤ 0`: if `S = R + Bᵗ P B` is nonzero at every pass and at the
gain computation, the solver has a result whose `P` is the last iterate and whose
`K` is computed through `1 / S`; it has no value exactly when some `S` on the
way is `0`, where `1 / S` has no exact value (nothing is reported). -/
theorem solver_no_validation (c : LQR) (n : Nat) :
    ((∀ k, k ≤ n → ∀ p, riccatiLoop k (initP c) = some p → calcS p ≠ 0) →
      ∃ p d, riccatiLoop n (initP c) = some p ∧ solveRiccatiIterative c (n : Int) = some d ∧
        matP d = matP p ∧
        d.K1 = 1 / calcS p * (c.B1 * (p.P11 * c.A11 + p.P12 * c.A21)
          + c.B2 * (p.P21 * c.A11 + p.P22 * c.A21)) ∧
        d.K2 = 1 / calcS p * (c.B1 * (p.P11 * c.A12 + p.P12 * c.A22)
          + c.B2 * (p.P21 * c.A12 + p.P22 * c.A22))) ∧
    (solveRiccatiIterative c (n : Int) = none ↔
      ∃ k, k ≤ n ∧ ∃ p, riccatiLoop k (initP c) = some p ∧ calcS p = 0) := by
  refine ⟨?_, solve_eq_none_iff c n⟩
  intro hall
  cases hs : solveRiccatiIterative c (n : Int) with
  | none =>
    obtain ⟨k, hk, p, hp, hS⟩ := (solve_eq_none_iff c n).mp hs
    exact absurd hS (hall k hk p hp)
  | some d =>
    obtain ⟨p, hp, hg⟩ := solve_some hs
    rw [Int.toNat_ofNat] at hp
    obtain ⟨-, -, h11, h12, h21, h22, hK1, hK2⟩ := computeGain_some hg
    obtain ⟨a1, a2, a3, a4, a5, a6, -⟩ := (riccatiLoop_some hp).1
    simp only [initP] at a1 a2 a3 a4 a5 a6
    refine ⟨p, d, hp, rfl, matP_congr h11 h12 h21 h22, ?_, ?_⟩
    · rw [hK1]; simp only [a1, a2, a3, a4, a5, a6]
    · rw [hK2]; simp only [a1, a2, a3, a4, a5, a6]

/-- C11, as stated, fails: with `R = -3 ≤ 0` (`A = I`, `B = (0, 1)`, `Q = I`) one
iteration meets `S = -2` and the gain computation `S = -1/2`; the solver reports
nothing and returns `P = diag(2, 5/2)` and `K = (0, -5)`, computed through
`1 / S`. -/
theorem solver_no_validation_counterexample :
    negRCtrl.R ≤ 0 ∧
    solveRiccatiIterative negRCtrl 1
      = some { negRCtrl with P11 := 2, P12 := 0, P21 := 0, P22 := 5 / 2, K1 := 0, K2 := -5 } := by
  constructor
  · norm_num [negRCtrl, zeroLQR]
  · norm_num [solveRiccatiIterative, riccatiLoop, riccatiBody, initP, computeGain, inv_scalar,
      negRCtrl, zeroLQR]

theorem negRCtrl_S (k : Nat) (hk : k ≤ 1) (p : LQR)
    (hp : riccatiLoop k (initP negRCtrl) = some p) : calcS p ≠ 0 := by
  interval_cases k
  · simp only [riccatiLoop, Option.some.injEq] at hp
    subst hp
    norm_num [calcS, initP, negRCtrl, zeroLQR]
  · have : riccatiLoop 1 (initP negRCtrl)
        = some { negRCtrl with P11 := 2, P12 := 0, P21 := 0, P22 := 5 / 2 } := by
      norm_num [riccatiLoop, riccatiBody, initP, inv_scalar, negRCtrl, zeroLQR]
    rw [this, Option.some.injEq] at hp
    subst hp
    norm_num [calcS, negRCtrl, zeroLQR]

/-- C11 (amended) at `R = -3`: every `S` on the way is nonzero and the solver has
a result. -/
theorem solver_no_validation_witness :
    (∀ k, k ≤ 1 → ∀ p, riccatiLoop k (initP negRCtrl) = some p → calcS p ≠ 0) ∧
    ∃ p d, riccatiLoop 1 (initP negRCtrl) = some p ∧
      solveRiccatiIterative negRCtrl ((1 : Nat) : Int) = some d ∧ matP d = matP p :=
  ⟨negRCtrl_S,
    let ⟨p, d, h1, h2, h3, _⟩ := (solver_no_validation negRCtrl 1).1 negRCtrl_S
    ⟨p, d, h1, h2, h3⟩⟩

/-! ## The simulator validates nothing -/

/-- For every current `P` the loop body computes the map with the rank-one term
built from `Aᵗ P B` alone. -/
theorem riccatiBody_matP_code (c : LQR) :
    (riccatiBody c).map matP = riccatiMapCode (matA c) (matB c) (matQ c) c.R (matP c) := by
  unfold riccatiMapCode
  rw [specS_eq_calcS]
  by_cases hS : calcS c = 0
  · simp [riccatiBody_eq_none hS, hS]
  · obtain ⟨d, hd⟩ := riccatiBody_isSome hS
    obtain ⟨-, -, -, -, h11, h12, h21, h22⟩ := riccatiBody_some hd
    rw [hd, if_neg hS, Option.map_some', Option.some.injEq]
    obtain ⟨a1, a2, a3, a4⟩ := matA_entries c
    obtain ⟨b1, b2⟩ := matB_entries c
    obtain ⟨q1, q2, q3, q4⟩ := matQ_entries c
    obtain ⟨p1, p2, p3, p4⟩ := matP_entries c
    obtain ⟨d1, d2, d3, d4⟩ := matP_entries d
    ext i j
    fin_cases i <;> fin_cases j <;>
      simp only [Fin.zero_eta, Fin.mk_one, Matrix.add_apply, Matrix.sub_apply,
        Matrix.mul_apply, Matrix.smul_apply, Matrix.transpose_apply, Fin.sum_univ_two,
        Finset.univ_unique, Fin.default_eq_zero, Finset.sum_singleton, smul_eq_mul,
        a1, a2, a3, a4, b1, b2, q1, q2, q3, q4, p1, p2, p3, p4, d1, d2, d3, d4,
        h11, h12, h21, h22] <;> ring

/-- For symmetric `P`, `(Aᵗ P B)ᵗ = Bᵗ P A`. -/
theorem transpose_AtPB (c : LQR) (hP : c.P12 = c.P21) :
    ((matA c).transpose * matP c * matB c).transpose
      = (matB c).transpose * matP c * matA c := by
  obtain ⟨a1, a2, a3, a4⟩ := matA_entries c
  obtain ⟨b1, b2⟩ := matB_entries c
  obtain ⟨p1, p2, p3, p4⟩ := matP_entries c
  ext i j
  fin_cases i
  fin_cases j <;>
    simp only [Fin.zero_eta, Fin.mk_one, Matrix.mul_apply, Matrix.transpose_apply,
      Fin.sum_univ_two, a1, a2, a3, a4, b1, b2, p1, p2, p3, p4, hP] <;> ring

/-- C13 (amended): for every `A`, `B`, `Q`, `R` and every current `P`, one pass of
the loop body replaces `P` by `Q + Aᵗ P A − (Aᵗ P B) S⁻¹ (Aᵗ P B)ᵗ`,
`S = R + Bᵗ P B` (no value where `S = 0`); for every symmetric `P` (`P12 = P21`)
the rank-one term equals `(Aᵗ P B) S⁻¹ (Bᵗ P A)` entry by entry and the pass
replaces `P` by `Q + Aᵗ P A − (Aᵗ P B) S⁻¹ (Bᵗ P A)`. -/
theorem riccatiBody_rank_one (c : LQR) :
    (riccatiBody c).map matP = riccatiMapCode (matA c) (matB c) (matQ c) c.R (matP c) ∧
    (c.P12 = c.P21 →
      (∀ i j : Fin 2,
        (((matA c).transpose * matP c * matB c)
          * ((specS (matB c) c.R (matP c))⁻¹
              • ((matA c).transpose * matP c * matB c).transpose)) i j
        = (((matA c).transpose * matP c * matB c)
          * ((specS (matB c) c.R (matP c))⁻¹
              • ((matB c).transpose * matP c * matA c))) i j) ∧
      (riccatiBody c).map matP
        = riccatiMapSpec (matA c) (matB c) (matQ c) c.R (matP c)) := by
  refine ⟨riccatiBody_matP_code c, ?_⟩
  intro hP
  refine ⟨?_, riccatiBody_matP c hP⟩
  intro i j
  rw [transpose_AtPB c hP]

theorem nonSymCtrl_body :
    riccatiBody nonSymCtrl
      = some { nonSymCtrl with P11 := -(1 / 2), P12 := 1, P21 := 0, P22 := 0 } := by
  norm_num [riccatiBody, inv_scalar, nonSymCtrl, zeroLQR]

/-- C13, as stated, fails for a non-symmetric `P`: with `A = I`, `B = (1, 1)`,
`Q = 0`, `R = 1`, `P = [[0, 1], [0, 0]]` (so `S = 2`) the loop body leaves
`P11 = -1/2` and `P12 = 1`, while `Q + Aᵗ P A − (Aᵗ P B) S⁻¹ (Bᵗ P A)` has the
entries `0` and `1/2` there. -/
theorem riccatiBody_rank_one_counterexample :
    (riccatiBody nonSymCtrl).map (fun d => (d.P11, d.P12)) = some (-(1 / 2), 1) ∧
    (riccatiMapSpec (matA nonSymCtrl) (matB nonSymCtrl) (matQ nonSymCtrl) nonSymCtrl.R
        (matP nonSymCtrl)).map (fun M => (M 0 0, M 0 1)) = some (0, 1 / 2) := by
  constructor
  · rw [nonSymCtrl_body]; rfl
  · have hS : specS (matB nonSymCtrl) nonSymCtrl.R (matP nonSymCtrl) = 2 := by
      rw [specS_eq_calcS]
      norm_num [calcS, nonSymCtrl, zeroLQR]
    obtain ⟨a1, a2, a3, a4⟩ := matA_entries nonSymCtrl
    obtain ⟨b1, b2⟩ := matB_entries nonSymCtrl
    obtain ⟨q1, q2, q3, q4⟩ := matQ_entries nonSymCtrl
    obtain ⟨p1, p2, p3, p4⟩ := matP_entries nonSymCtrl
    unfold riccatiMapSpec
    rw [hS, if_neg (by norm_num), Option.map_some', Option.some.injEq]
    simp only [Matrix.add_apply, Matrix.sub_apply,
      Matrix.mul_apply, Matrix.smul_apply, Matrix.transpose_apply, Fin.sum_univ_two,
      Finset.univ_unique, Fin.default_eq_zero, Finset.sum_singleton, smul_eq_mul,
      a1, a2, a3, a4, b1, b2, q1, q2, q3, q4, p1, p2, p3, p4]
    norm_num [nonSymCtrl, zeroLQR]

/-- C13 (amended) at the symmetric `P = Q` of the controller of `main`. -/
theorem riccatiBody_rank_one_witness :
    (initP (mainCtrl zeroLQR)).P12 = (initP (mainCtrl zeroLQR)).P21 ∧
    (riccatiBody (initP (mainCtrl zeroLQR))).map matP
      = riccatiMapSpec (matA (initP (mainCtrl zeroLQR))) (matB (initP (mainCtrl zeroLQR)))
          (matQ (initP (mainCtrl zeroLQR))) (initP (mainCtrl zeroLQR)).R
          (matP (initP (mainCtrl zeroLQR))) :=
  ⟨rfl, ((riccatiBody_rank_one (initP (mainCtrl zeroLQR))).2 rfl).2⟩

/-! ## Consecutive iterates under valid weights -/

theorem psdQ_congr {c p : LQR} (h : SameProblem c p) (hQ : PsdQ c) : PsdQ p := by
  intro x1 x2
  obtain ⟨-, -, -, -, -, -, q1, q2, q3, q4, -⟩ := h
  rw [← q1, ← q2, ← q3, ← q4]
  exact hQ x1 x2

/-- Under valid weights, the iterate after `n` passes, the next iterate and the
two solver results built from them all exist; the iterates are symmetric and
positive-semidefinite. -/
theorem riccati_consecutive (c : LQR) (hQs : c.Q12 = c.Q21) (hQ : PsdQ c) (hR : 0 < c.R)
    (n : Nat) :
    ∃ p q dn dn1, riccatiLoop n (initP c) = some p ∧ riccatiBody p = some q ∧
      riccatiLoop (n + 1) (initP c) = some q ∧
      computeGain p = some dn ∧ computeGain q = some dn1 ∧
      solveRiccatiIterative c (n : Int) = some dn ∧
      solveRiccatiIterative c ((n : Int) + 1) = some dn1 ∧
      SameProblem c p ∧ p.P12 = p.P21 ∧ PsdP p ∧ q.P12 = q.P21 ∧ PsdP q ∧ 0 < calcS p := by
  obtain ⟨p, hp, hsym, hpsd⟩ := riccatiLoop_valid c hQs hQ hR n
  obtain ⟨q, hq, hsymq, hpsdq⟩ := riccatiLoop_valid c hQs hQ hR (n + 1)
  have hsp : SameProblem c p := (riccatiLoop_some hp).1
  have hspq : SameProblem c q := (riccatiLoop_some hq).1
  have hRp : 0 < p.R := by rw [← hsp.2.2.2.2.2.2.2.2.2.2]; exact hR
  have hRq : 0 < q.R := by rw [← hspq.2.2.2.2.2.2.2.2.2.2]; exact hR
  have hSp : 0 < calcS p := lt_of_lt_of_le hRp (calcS_ge_R hpsd)
  have hSq : 0 < calcS q := lt_of_lt_of_le hRq (calcS_ge_R hpsdq)
  have hbody : riccatiBody p = some q := by
    have := hq
    rw [riccatiLoop_succ_right, hp, Option.some_bind] at this
    exact this
  obtain ⟨dn, hdn⟩ := computeGain_isSome (ne_of_gt hSp)
  obtain ⟨dn1, hdn1⟩ := computeGain_isSome (ne_of_gt hSq)
  have e1 : ((n : Int) + 1).toNat = n + 1 := by omega
  refine ⟨p, q, dn, dn1, hp, hbody, hq, hdn, hdn1, ?_, ?_, hsp, hsym, hpsd, hsymq, hpsdq, hSp⟩
  · simp only [solveRiccatiIterative, Int.toNat_ofNat, hp, Option.some_bind, hdn]
  · simp only [solveRiccatiIterative, e1, hq, Option.some_bind, hdn1]

/-- The iterates are non-decreasing: under valid weights the iterate after
`n + 1` passes dominates the one after `n` passes. -/
theorem riccatiLoop_monotone (c : LQR) (hQs : c.Q12 = c.Q21) (hQ : PsdQ c) (hR : 0 < c.R)
    (n : Nat) :
    ∃ p q, riccatiLoop n (initP c) = some p ∧ riccatiBody p = some q ∧
      ∀ x1 x2 : ℚ, quadForm p.P11 p.P12 p.P21 p.P22 x1 x2
        ≤ quadForm q.P11 q.P12 q.P21 q.P22 x1 x2 := by
  induction n with
  | zero =>
    obtain ⟨p, q, -, -, hp, hb, -, -, -, -, -, -, hsym, hpsd, -, -, -⟩ :=
      riccati_consecutive c hQs hQ hR 0
    simp only [riccatiLoop, Option.some.injEq] at hp
    subst hp
    exact ⟨initP c, q, rfl, hb, fun x1 x2 => riccatiBody_ge_Q hb hsym hpsd hR x1 x2⟩
  | succ n ih =>
    obtain ⟨p, q, hp, hb, hle⟩ := ih
    obtain ⟨p', q', -, -, hp', hb', hq', -, -, -, -, hsp', hsym', -, hsymq', -, hS'⟩ :=
      riccati_consecutive c hQs hQ hR n
    rw [hp, Option.some.injEq] at hp'
    subst hp'
    rw [hb, Option.some.injEq] at hb'
    subst hb'
    obtain ⟨q₂, r, -, -, hq2, hbq, -, -, -, -, -, -, -, -, -, -, -⟩ :=
      riccati_consecutive c hQs hQ hR (n + 1)
    rw [hq', Option.some.injEq] at hq2
    subst hq2
    have hpq : SameProblem p q := (riccatiBody_some hb).2.1
    exact ⟨q, r, hq', hbq,
      fun x1 x2 => riccatiBody_mono hb hbq hpq hsym' hsymq' (le_of_lt hS') hle x1 x2⟩

/-! ## One-step optimality, symmetry, semidefiniteness and monotonicity of the iterates -/

/-- C14 (amended): over exact arithmetic, for symmetric positive-semidefinite `Q`,
`R > 0` and every `n`, the
solver has results for `n` and for `n + 1` iterations, and with `P_n`, `K_n` from
the first and `P_{n+1}` from the second, for every state `x` and control `u`:
`xᵗ P_{n+1} x ≤ xᵗ Q x + R u² + (A x + B u)ᵗ P_n (A x + B u)`, with equality when
`u = −K_n x`. -/
theorem one_step_optimality (c : LQR) (n : Nat) (hQs : c.Q12 = c.Q21) (hQ : PsdQ c)
    (hR : 0 < c.R) :
    ∃ dn dn1, solveRiccatiIterative c (n : Int) = some dn ∧
      solveRiccatiIterative c ((n : Int) + 1) = some dn1 ∧
      ∀ x1 x2 u : ℚ,
        quadForm dn1.P11 dn1.P12 dn1.P21 dn1.P22 x1 x2
          ≤ quadForm c.Q11 c.Q12 c.Q21 c.Q22 x1 x2 + c.R * u ^ 2
            + quadForm dn.P11 dn.P12 dn.P21 dn.P22
                (c.A11 * x1 + c.A12 * x2 + c.B1 * u) (c.A21 * x1 + c.A22 * x2 + c.B2 * u) ∧
        (u = -(dn.K1 * x1 + dn.K2 * x2) →
          quadForm dn1.P11 dn1.P12 dn1.P21 dn1.P22 x1 x2
            = quadForm c.Q11 c.Q12 c.Q21 c.Q22 x1 x2 + c.R * u ^ 2
              + quadForm dn.P11 dn.P12 dn.P21 dn.P22
                  (c.A11 * x1 + c.A12 * x2 + c.B1 * u)
                  (c.A21 * x1 + c.A22 * x2 + c.B2 * u)) := by
  obtain ⟨p, q, dn, dn1, -, hb, -, hdn, hdn1, hs, hs1, hsp, hsym, -, -, -, hS⟩ :=
    riccati_consecutive c hQs hQ hR n
  refine ⟨dn, dn1, hs, hs1, ?_⟩
  intro x1 x2 u
  obtain ⟨-, -, n11, n12, n21, n22, hK1, hK2⟩ := computeGain_some hdn
  obtain ⟨-, -, m11, m12, m21, m22, -, -⟩ := computeGain_some hdn1
  have key := riccatiBody_square hb hsym x1 x2 u
  rw [← hK1, ← hK2] at key
  obtain ⟨a1, a2, a3, a4, a5, a6, a7, a8, a9, a10, a11⟩ := hsp
  rw [m11, m12, m21, m22, n11, n12, n21, n22, a1, a2, a3, a4, a5, a6, a7, a8, a9, a10, a11]
  constructor
  · have := mul_nonneg (le_of_lt hS) (sq_nonneg (u + dn.K1 * x1 + dn.K2 * x2))
    linarith
  · intro hu
    have hz : u + dn.K1 * x1 + dn.K2 * x2 = 0 := by rw [hu]; ring
    rw [hz] at key
    have : calcS p * (0 : ℚ) ^ 2 = 0 := by ring
    linarith

/-- C14 (amended) at the weights of `main` with three iterations, over exact
arithmetic. -/
theorem one_step_optimality_witness :
    (mainCtrl zeroLQR).Q12 = (mainCtrl zeroLQR).Q21 ∧ PsdQ (mainCtrl zeroLQR) ∧
    0 < (mainCtrl zeroLQR).R ∧
    ∃ dn dn1, solveRiccatiIterative (mainCtrl zeroLQR) ((3 : Nat) : Int) = some dn ∧
      solveRiccatiIterative (mainCtrl zeroLQR) (((3 : Nat) : Int) + 1) = some dn1 ∧
      ∀ x1 x2 : ℚ, quadForm dn1.P11 dn1.P12 dn1.P21 dn1.P22 x1 x2
        = quadForm (mainCtrl zeroLQR).Q11 (mainCtrl zeroLQR).Q12 (mainCtrl zeroLQR).Q21
            (mainCtrl zeroLQR).Q22 x1 x2
          + (mainCtrl zeroLQR).R * (-(dn.K1 * x1 + dn.K2 * x2)) ^ 2
          + quadForm dn.P11 dn.P12 dn.P21 dn.P22
              ((mainCtrl zeroLQR).A11 * x1 + (mainCtrl zeroLQR).A12 * x2
                + (mainCtrl zeroLQR).B1 * -(dn.K1 * x1 + dn.K2 * x2))
              ((mainCtrl zeroLQR).A21 * x1 + (mainCtrl zeroLQR).A22 * x2
                + (mainCtrl zeroLQR).B2 * -(dn.K1 * x1 + dn.K2 * x2)) :=
  ⟨rfl, psdQ_mainCtrl zeroLQR, by norm_num [mainCtrl],
    let ⟨dn, dn1, h1, h2, h3⟩ := one_step_optimality (mainCtrl zeroLQR) 3 rfl
      (psdQ_mainCtrl zeroLQR) (by norm_num [mainCtrl])
    ⟨dn, dn1, h1, h2, fun x1 x2 => (h3 x1 x2 (-(dn.K1 * x1 + dn.K2 * x2))).2 rfl⟩⟩

/-- C15 (amended): over exact arithmetic, for every `A`, `B`, `R` and every `Q`
with `Q12 = Q21`, the matrix `P`
after `n` passes of the loop, and the `P` stored by `solveRiccatiIterative(n)`,
satisfy `P12 = P21`, for every `n`; the solver has such a result whenever no `S`
on the way is `0`. -/
theorem symmetry_invariant (c : LQR) (n : Nat) (hQ : c.Q12 = c.Q21) :
    (∀ p, riccatiLoop n (initP c) = some p → p.P12 = p.P21) ∧
    (∀ d, solveRiccatiIterative c (n : Int) = some d → d.P12 = d.P21) ∧
    ((∀ k, k ≤ n → ∀ p, riccatiLoop k (initP c) = some p → calcS p ≠ 0) →
      ∃ d, solveRiccatiIterative c (n : Int) = some d ∧ d.P12 = d.P21) := by
  have h1 : ∀ p, riccatiLoop n (initP c) = some p → p.P12 = p.P21 :=
    fun p hp => riccatiLoop_symm hp hQ hQ
  have h2 : ∀ d, solveRiccatiIterative c (n : Int) = some d → d.P12 = d.P21 := by
    intro d hd
    obtain ⟨p, hp, hg⟩ := solve_some hd
    rw [Int.toNat_ofNat] at hp
    obtain ⟨-, -, -, h12, h21, -, -, -⟩ := computeGain_some hg
    rw [h12, h21]
    exact h1 p hp
  refine ⟨h1, h2, ?_⟩
  intro hall
  cases hs : solveRiccatiIterative c (n : Int) with
  | none =>
    obtain ⟨k, hk, p, hp, hS⟩ := (solve_eq_none_iff c n).mp hs
    exact absurd hS (hall k hk p hp)
  | some d => exact ⟨d, rfl, h2 d hs⟩

/-- C15 (amended) at the symmetric `Q = I` with the negative `R = -3`, over exact
arithmetic: after one iteration
the solver stores the symmetric `P = diag(2, 5/2)`. -/
theorem symmetry_invariant_witness :
    negRCtrl.Q12 = negRCtrl.Q21 ∧
    (∀ k, k ≤ 1 → ∀ p, riccatiLoop k (initP negRCtrl) = some p → calcS p ≠ 0) ∧
    ∃ d, solveRiccatiIterative negRCtrl ((1 : Nat) : Int) = some d ∧ d.P12 = d.P21 :=
  ⟨rfl, negRCtrl_S, (symmetry_invariant negRCtrl 1 rfl).2.2 negRCtrl_S⟩

/-- C16 (amended): over exact arithmetic, for symmetric positive-semidefinite `Q`
and `R > 0`, the solver has a
result for every `n`, and the `P` it stores is positive-semidefinite
(`xᵗ P x ≥ 0` for every `x`). -/
theorem psd_invariant (c : LQR) (n : Nat) (hQs : c.Q12 = c.Q21) (hQ : PsdQ c)
    (hR : 0 < c.R) :
    ∃ d, solveRiccatiIterative c (n : Int) = some d ∧
      ∀ x1 x2 : ℚ, 0 ≤ quadForm d.P11 d.P12 d.P21 d.P22 x1 x2 := by
  obtain ⟨p, -, dn, -, -, -, -, hdn, -, hs, -, -, -, hpsd, -, -, -⟩ :=
    riccati_consecutive c hQs hQ hR n
  obtain ⟨-, -, n11, n12, n21, n22, -, -⟩ := computeGain_some hdn
  refine ⟨dn, hs, ?_⟩
  intro x1 x2
  rw [n11, n12, n21, n22]
  exact hpsd x1 x2

/-- C16 (amended) at the weights and iteration count of `main`, over exact
arithmetic. -/
theorem psd_invariant_witness :
    (mainCtrl zeroLQR).Q12 = (mainCtrl zeroLQR).Q21 ∧ PsdQ (mainCtrl zeroLQR) ∧
    0 < (mainCtrl zeroLQR).R ∧
    ∃ d, solveRiccatiIterative (mainCtrl zeroLQR) ((800 : Nat) : Int) = some d ∧
      ∀ x1 x2 : ℚ, 0 ≤ quadForm d.P11 d.P12 d.P21 d.P22 x1 x2 :=
  ⟨rfl, psdQ_mainCtrl zeroLQR, by norm_num [mainCtrl],
    psd_invariant (mainCtrl zeroLQR) 800 rfl (psdQ_mainCtrl zeroLQR) (by norm_num [mainCtrl])⟩

/-- C17 (amended): over exact arithmetic, for symmetric positive-semidefinite `Q`,
`R > 0` and every `n`, the
solver has results for `n` and `n + 1` iterations, and the difference of their
`P` matrices is positive-semidefinite: `xᵗ P_n x ≤ xᵗ P_{n+1} x` for every `x`;
in particular every iterate dominates `Q`: `xᵗ Q x ≤ xᵗ P_n x`. -/
theorem iterates_monotone (c : LQR) (n : Nat) (hQs : c.Q12 = c.Q21) (hQ : PsdQ c)
    (hR : 0 < c.R) :
    ∃ dn dn1, solveRiccatiIterative c (n : Int) = some dn ∧
      solveRiccatiIterative c ((n : Int) + 1) = some dn1 ∧
      (∀ x1 x2 : ℚ, 0 ≤ quadForm (dn1.P11 - dn.P11) (dn1.P12 - dn.P12) (dn1.P21 - dn.P21)
        (dn1.P22 - dn.P22) x1 x2) ∧
      (∀ x1 x2 : ℚ, quadForm dn.P11 dn.P12 dn.P21 dn.P22 x1 x2
        ≤ quadForm dn1.P11 dn1.P12 dn1.P21 dn1.P22 x1 x2) ∧
      (∀ x1 x2 : ℚ, quadForm c.Q11 c.Q12 c.Q21 c.Q22 x1 x2
        ≤ quadForm dn.P11 dn.P12 dn.P21 dn.P22 x1 x2) := by
  obtain ⟨p, q, dn, dn1, hp, hb, -, hdn, hdn1, hs, hs1, hsp, hsym, hpsd, -, -, -⟩ :=
    riccati_consecutive c hQs hQ hR n
  obtain ⟨p', q', hp', hb', hle⟩ := riccatiLoop_monotone c hQs hQ hR n
  rw [hp, Option.some.injEq] at hp'
  subst hp'
  rw [hb, Option.some.injEq] at hb'
  subst hb'
  obtain ⟨-, -, n11, n12, n21, n22, -, -⟩ := computeGain_some hdn
  obtain ⟨-, -, m11, m12, m21, m22, -, -⟩ := computeGain_some hdn1
  have hmono : ∀ x1 x2 : ℚ, quadForm dn.P11 dn.P12 dn.P21 dn.P22 x1 x2
      ≤ quadForm dn1.P11 dn1.P12 dn1.P21 dn1.P22 x1 x2 := by
    intro x1 x2
    rw [n11, n12, n21, n22, m11, m12, m21, m22]
    exact hle x1 x2
  have hdomQ : ∀ x1 x2 : ℚ, quadForm c.Q11 c.Q12 c.Q21 c.Q22 x1 x2
      ≤ quadForm dn.P11 dn.P12 dn.P21 dn.P22 x1 x2 := by
    intro x1 x2
    rw [n11, n12, n21, n22]
    cases n with
    | zero =>
      simp only [riccatiLoop, Option.some.injEq] at hp
      subst hp
      exact le_refl _
    | succ m =>
      obtain ⟨p₀, q₀, -, -, hp₀, hb₀, hq₀, -, -, -, -, hsp₀, hsym₀, hpsd₀, -, -, -⟩ :=
        riccati_consecutive c hQs hQ hR m
      rw [hp, Option.some.injEq] at hq₀
      subst hq₀
      have hR₀ : 0 < p₀.R := by rw [← hsp₀.2.2.2.2.2.2.2.2.2.2]; exact hR
      have := riccatiBody_ge_Q hb₀ hsym₀ hpsd₀ hR₀ x1 x2
      obtain ⟨-, -, -, -, -, -, a7, a8, a9, a10, -⟩ := hsp₀
      rw [a7, a8, a9, a10]
      exact this
  refine ⟨dn, dn1, hs, hs1, ?_, hmono, hdomQ⟩
  intro x1 x2
  have := hmono x1 x2
  simp only [quadForm] at this ⊢
  linarith

/-- C17 (amended) at the weights of `main` between 5 and 6 iterations, over exact
arithmetic. -/
theorem iterates_monotone_witness :
    (mainCtrl zeroLQR).Q12 = (mainCtrl zeroLQR).Q21 ∧ PsdQ (mainCtrl zeroLQR) ∧
    0 < (mainCtrl zeroLQR).R ∧
    ∃ dn dn1, solveRiccatiIterative (mainCtrl zeroLQR) ((5 : Nat) : Int) = some dn ∧
      solveRiccatiIterative (mainCtrl zeroLQR) (((5 : Nat) : Int) + 1) = some dn1 ∧
      ∀ x1 x2 : ℚ, quadForm dn.P11 dn.P12 dn.P21 dn.P22 x1 x2
        ≤ quadForm dn1.P11 dn1.P12 dn1.P21 dn1.P22 x1 x2 :=
  ⟨rfl, psdQ_mainCtrl zeroLQR, by norm_num [mainCtrl],
    let ⟨dn, dn1, h1, h2, _, h4, _⟩ := iterates_monotone (mainCtrl zeroLQR) 5 rfl
      (psdQ_mainCtrl zeroLQR) (by norm_num [mainCtrl])
    ⟨dn, dn1, h1, h2, h4⟩⟩

/-! ## `Solution::getConcatenation` -/

/-- Loop invariant: after `k ≤ n` passes `ans` still has `2 n` cells and the cells
`j` and `j + n` hold `nums[j]` for every `j < k`. -/
theorem concat_foldl_inv (nums : List Int) (k : Nat) (hk : k ≤ nums.length) :
    ((List.range k).foldl (concatBody nums nums.length)
        (List.replicate (2 * nums.length) 0)).length = 2 * nums.length ∧
    ∀ j, j < k →
      ((List.range k).foldl (concatBody nums nums.length)
          (List.replicate (2 * nums.length) 0))[j]? = some (nums.getD j 0) ∧
      ((List.range k).foldl (concatBody nums nums.length)
          (List.replicate (2 * nums.length) 0))[j + nums.length]? = some (nums.getD j 0) := by
  induction k with
  | zero =>
    refine ⟨by simp, ?_⟩
    intro j hj
    exact absurd hj (Nat.not_lt_zero j)
  | succ k ih =>
    obtain ⟨hlen, hcells⟩ := ih (Nat.le_of_succ_le hk)
    have hkn : k < nums.length := hk
    rw [List.range_succ, List.foldl_append, List.foldl_cons, List.foldl_nil]
    generalize (List.range k).foldl (concatBody nums nums.length)
      (List.replicate (2 * nums.length) 0) = ans at hlen hcells ⊢
    unfold concatBody
    refine ⟨by rw [List.length_set, List.length_set, hlen], ?_⟩
    intro j hj
    rcases Nat.lt_succ_iff_lt_or_eq.mp hj with hlt | heq
    · obtain ⟨c1, c2⟩ := hcells j hlt
      constructor
      · rw [List.getElem?_set_ne (by omega), List.getElem?_set_ne (by omega)]
        exact c1
      · rw [List.getElem?_set_ne (by omega), List.getElem?_set_ne (by omega)]
        exact c2
    · subst heq
      constructor
      · rw [List.getElem?_set_ne (by omega)]
        exact List.getElem?_set_self (by omega)
      · exact List.getElem?_set_self (by rw [List.length_set]; omega)

/-- After all `n` passes `ans` is `nums` followed by `nums`. -/
theorem concat_foldl_eq (nums : List Int) :
    (List.range nums.length).foldl (concatBody nums nums.length)
      (List.replicate (2 * nums.length) 0) = nums ++ nums := by
  obtain ⟨hlen, hcells⟩ := concat_foldl_inv nums nums.length (le_refl _)
  apply List.ext_getElem?
  intro i
  rcases Nat.lt_or_ge i nums.length with h1 | h1
  · rw [(hcells i h1).1, List.getElem?_append_left h1, List.getD_eq_getElem nums 0 h1,
      List.getElem?_eq_getElem h1]
  · rw [List.getElem?_append_right h1]
    rcases Nat.lt_or_ge (i - nums.length) nums.length with h2 | h2
    · have h3 := (hcells (i - nums.length) h2).2
      rw [Nat.sub_add_cancel h1] at h3
      rw [h3, List.getD_eq_getElem nums 0 h2, List.getElem?_eq_getElem h2]
    · rw [List.getElem?_eq_none h2, List.getElem?_eq_none (by rw [hlen]; omega)]

/-- C18 (amended): for every integer list `nums` of length `n` with
`2 n ≤ INT_MAX`, `getConcatenation(nums)` returns a list of length `2 n` equal to
`nums` followed by `nums`: for every `i < n`, `ans[i] = nums[i]` and
`ans[i + n] = nums[i]`; the empty list maps to the empty list. -/
theorem getConcatenation_spec :
    (∀ nums : List Int, 2 * nums.length ≤ INT_MAX →
      ∃ ans, getConcatenation nums = some ans ∧ ans.length = 2 * nums.length ∧
        ans = nums ++ nums ∧
        ∀ (i : Nat) (h : i < nums.length),
          ans[i]? = some (nums.get ⟨i, h⟩) ∧ ans[i + nums.length]? = some (nums.get ⟨i, h⟩)) ∧
    getConcatenation [] = some [] := by
  constructor
  · intro nums hfit
    refine ⟨nums ++ nums, ?_, ?_, rfl, ?_⟩
    · rw [getConcatenation, if_pos hfit, concat_foldl_eq]
    · rw [List.length_append]; omega
    · intro i h
      constructor
      · rw [List.getElem?_append_left h]
        exact List.getElem?_eq_getElem h
      · rw [List.getElem?_append_right (Nat.le_add_left _ _), Nat.add_sub_cancel]
        exact List.getElem?_eq_getElem h
  · rfl

/-- C18, as stated, fails for a list whose doubled length does not fit `int`:
for `2^30` elements `n = 1073741824` and `2 * n = 2147483648 > INT_MAX`, so the
size of `ans` is not defined and no list of length `2 n` is returned. -/
theorem getConcatenation_counterexample :
    getConcatenation (List.replicate 1073741824 0) = none := by
  unfold getConcatenation
  rw [List.length_replicate]
  exact if_neg (by norm_num [INT_MAX])

/-- C18 (amended) at `nums = [1, -2, 3]`. -/
theorem getConcatenation_spec_witness :
    2 * ([1, -2, 3] : List Int).length ≤ INT_MAX ∧
    ∃ ans, getConcatenation [1, -2, 3] = some ans ∧ ans = [1, -2, 3] ++ [1, -2, 3] :=
  ⟨by norm_num [INT_MAX],
    let ⟨ans, h1, _, h3, _⟩ := getConcatenation_spec.1 [1, -2, 3] (by norm_num [INT_MAX])
    ⟨ans, h1, h3⟩⟩

/-! ## Double arithmetic: order facts and the simulation loop -/

theorem flt_false_of_fle {x y : F64} (h : F64.fle x y = true) : F64.flt y x = false := by
  cases x <;> cases y <;> simp_all [F64.flt, F64.fle]
  · rename_i s m e t n f
    rw [min_comm f e]
    exact h
  · rename_i s t
    rcases h with h | h <;> simp [h]

theorem fle_of_flt_false {x y : F64} (hx : x ≠ F64.nan) (hy : y ≠ F64.nan)
    (h : F64.flt x y = false) : F64.fle y x = true := by
  cases x <;> cases y <;> simp_all [F64.flt, F64.fle]
  · rename_i s m e t n f
    rw [min_comm f e]
    exact h
  · rename_i s t
    by_cases hs : s = true <;> by_cases ht : t = true <;> simp_all

theorem fle_self {x : F64} (hx : x ≠ F64.nan) : F64.fle x x = true := by
  cases x <;> simp_all [F64.fle]

theorem ne_nan_of_fle {x y : F64} (h : F64.fle x y = true) :
    x ≠ F64.nan ∧ y ≠ F64.nan := by
  cases x <;> cases y <;> simp_all [F64.fle]

theorem dbl_simLoop_log (ctrl : Dbl.LQR) (delta_min delta_max dt : F64) (k : Nat)
    (s : Dbl.SimState) :
    (Dbl.simLoop ctrl delta_min delta_max dt k s).log
      = s.log ++ Dbl.trajFrom ctrl delta_min delta_max dt k s.t s.ey s.epsi := by
  induction k generalizing s with
  | zero => simp [Dbl.simLoop, Dbl.trajFrom]
  | succ k ih =>
    rw [Dbl.simLoop, ih]
    simp [Dbl.simBody, Dbl.trajFrom]

theorem dbl_simulate_log (ctrl : Dbl.LQR) (ey0 epsi0 delta_min delta_max dt : F64)
    (steps : Int) :
    (Dbl.simulate ctrl ey0 epsi0 delta_min delta_max dt steps).log
      = Dbl.trajFrom ctrl delta_min delta_max dt steps.toNat (F64.fin false 0 0) ey0 epsi0 := by
  simp [Dbl.simulate, dbl_simLoop_log]

theorem dbl_trajFrom_length (ctrl : Dbl.LQR) (delta_min delta_max dt : F64) (k : Nat)
    (t ey epsi : F64) :
    (Dbl.trajFrom ctrl delta_min delta_max dt k t ey epsi).length = k := by
  induction k generalizing t ey epsi with
  | zero => simp [Dbl.trajFrom]
  | succ k ih => simp [Dbl.trajFrom, ih]

theorem dbl_trajFrom_sample (ctrl : Dbl.LQR) (delta_min delta_max dt : F64) (k : Nat)
    (t ey epsi : F64) (j : Nat) (s : Dbl.Sample)
    (h : (Dbl.trajFrom ctrl delta_min delta_max dt k t ey epsi)[j]? = some s) :
    s.delta = Dbl.controlOf ctrl delta_min delta_max s.ey s.epsi ∧
    s.t = (fun u => F64.fadd u dt)^[j] t := by
  induction k generalizing t ey epsi j with
  | zero => simp [Dbl.trajFrom] at h
  | succ k ih =>
    cases j with
    | zero =>
      simp only [Dbl.trajFrom, List.getElem?_cons_zero, Option.some.injEq] at h
      subst h
      simp
    | succ j =>
      simp only [Dbl.trajFrom, List.getElem?_cons_succ] at h
      obtain ⟨h1, h2⟩ := ih _ _ _ _ h
      exact ⟨h1, by rw [h2, Function.iterate_succ_apply]⟩

theorem flt_nan_left (y : F64) : F64.flt F64.nan y = false := by
  cases y <;> rfl

theorem flt_nan_right (x : F64) : F64.flt x F64.nan = false := by
  cases x <;> rfl

/-- The two saturation tests of lines 129-130 on a double `raw`: NaN passes both
tests unchanged; any other value ends in `[delta_min, delta_max]` and is kept when
it already lies there. -/
theorem dbl_saturate_spec (raw delta_min delta_max : F64)
    (h : F64.fle delta_min delta_max = true) :
    (raw = F64.nan →
      (if F64.flt delta_max (if F64.flt raw delta_min then delta_min else raw) then delta_max
        else (if F64.flt raw delta_min then delta_min else raw)) = F64.nan) ∧
    (raw ≠ F64.nan →
      F64.fle delta_min
        (if F64.flt delta_max (if F64.flt raw delta_min then delta_min else raw) then delta_max
          else (if F64.flt raw delta_min then delta_min else raw)) = true ∧
      F64.fle
        (if F64.flt delta_max (if F64.flt raw delta_min then delta_min else raw) then delta_max
          else (if F64.flt raw delta_min then delta_min else raw)) delta_max = true ∧
      (F64.fle delta_min raw = true → F64.fle raw delta_max = true →
        (if F64.flt delta_max (if F64.flt raw delta_min then delta_min else raw) then delta_max
          else (if F64.flt raw delta_min then delta_min else raw)) = raw)) := by
  obtain ⟨hmin, hmax⟩ := ne_nan_of_fle h
  constructor
  · intro hr
    subst hr
    simp [flt_nan_left, flt_nan_right]
  · intro hr
    by_cases h1 : F64.flt raw delta_min = true
    · have h2 : F64.flt delta_max delta_min = false := flt_false_of_fle h
      simp only [h1, if_true, h2, Bool.false_eq_true, if_false]
      refine ⟨fle_self hmin, h, ?_⟩
      intro h3
      rw [flt_false_of_fle h3] at h1
      exact absurd h1 (by simp)
    · have h1' : F64.flt raw delta_min = false := by simpa using h1
      simp only [h1', Bool.false_eq_true, if_false]
      by_cases h2 : F64.flt delta_max raw = true
      · simp only [h2, if_true]
        refine ⟨h, fle_self hmax, ?_⟩
        intro _ h4
        rw [flt_false_of_fle h4] at h2
        exact absurd h2 (by simp)
      · have h2' : F64.flt delta_max raw = false := by simpa using h2
        simp only [h2', Bool.false_eq_true, if_false]
        exact ⟨fle_of_flt_false hr hmin h1', fle_of_flt_false hmax hr h2',
          fun _ _ => trivial⟩

/-- C7 (amended): whenever `delta_min ≤ delta_max`, every control recorded by the
simulation in double arithmetic (one per step, `N` in all) whose raw value
`-(K1*ey + K2*epsi)` is a number lies in `[delta_min, delta_max]` and equals the
raw value whenever that already lies in the range; a raw value that is NaN fails
both tests of lines 129-130 and is recorded as NaN. -/
theorem actuator_limits_double (ctrl : Dbl.LQR) (ey0 epsi0 delta_min delta_max dt : F64)
    (steps : Int) (h : F64.fle delta_min delta_max = true) :
    (Dbl.simulate ctrl ey0 epsi0 delta_min delta_max dt steps).log.length = steps.toNat ∧
    ∀ s ∈ (Dbl.simulate ctrl ey0 epsi0 delta_min delta_max dt steps).log,
      (F64.fneg (F64.fadd (F64.fmul ctrl.K1 s.ey) (F64.fmul ctrl.K2 s.epsi)) = F64.nan →
        s.delta = F64.nan) ∧
      (F64.fneg (F64.fadd (F64.fmul ctrl.K1 s.ey) (F64.fmul ctrl.K2 s.epsi)) ≠ F64.nan →
        F64.fle delta_min s.delta = true ∧ F64.fle s.delta delta_max = true ∧
        (F64.fle delta_min
            (F64.fneg (F64.fadd (F64.fmul ctrl.K1 s.ey) (F64.fmul ctrl.K2 s.epsi))) = true →
          F64.fle (F64.fneg (F64.fadd (F64.fmul ctrl.K1 s.ey) (F64.fmul ctrl.K2 s.epsi)))
            delta_max = true →
          s.delta = F64.fneg (F64.fadd (F64.fmul ctrl.K1 s.ey) (F64.fmul ctrl.K2 s.epsi)))) := by
  rw [dbl_simulate_log]
  refine ⟨dbl_trajFrom_length _ _ _ _ _ _ _ _, ?_⟩
  intro s hs
  obtain ⟨k, hk⟩ := List.getElem?_of_mem hs
  have hd := (dbl_trajFrom_sample _ _ _ _ _ _ _ _ _ _ hk).1
  rw [hd]
  exact dbl_saturate_spec _ delta_min delta_max h

/-! ## Double arithmetic: evaluations -/

set_option maxRecDepth 1000000 in
theorem dbl_solve_main_5 :
    Dbl.solveRiccatiIterative (Dbl.mainCtrl Dbl.zeroLQR) 5
      = { A11 := F64.fin false 1 0, A12 := F64.fin false 1 (-1),
          A21 := F64.fin false 0 0, A22 := F64.fin false 1 0,
          B1 := F64.fin false 0 0, B2 := F64.fin false 3602879701896397 (-54),
          Q11 := F64.fin false 3 0, Q12 := F64.fin false 0 0,
          Q21 := F64.fin false 0 0, Q22 := F64.fin false 3 (-1),
          R := F64.fin false 1 (-1), P11 := F64.fin false 3519433150842501 (-48),
          P12 := F64.fin false 76748380432857 (-43), P21 := F64.fin false 4911896347702849 (-49),
          P22 := F64.fin false 4009659103187049 (-48), K1 := F64.fin false 7346217969385161 (-52),
          K2 := F64.fin false 3916694524330605 (-50) } := by
  decide

set_option maxRecDepth 1000000 in
theorem dbl_solve_main_6 :
    Dbl.solveRiccatiIterative (Dbl.mainCtrl Dbl.zeroLQR) 6
      = { A11 := F64.fin false 1 0, A12 := F64.fin false 1 (-1),
          A21 := F64.fin false 0 0, A22 := F64.fin false 1 0,
          B1 := F64.fin false 0 0, B2 := F64.fin false 3602879701896397 (-54),
          Q11 := F64.fin false 3 0, Q12 := F64.fin false 0 0,
          Q21 := F64.fin false 0 0, Q22 := F64.fin false 3 (-1),
          R := F64.fin false 1 (-1), P11 := F64.fin false 3562635410247849 (-48),
          P12 := F64.fin false 626737949443593 (-46), P21 := F64.fin false 626737949443593 (-46),
          P22 := F64.fin false 8247244883319595 (-49), K1 := F64.fin false 7386953058846013 (-52),
          K2 := F64.fin false 7922045623231053 (-51) } := by
  decide

set_option maxRecDepth 1000000 in
theorem dbl_mainCtrl_eval :
    Dbl.mainCtrl Dbl.zeroLQR
      = { A11 := F64.fin false 1 0, A12 := F64.fin false 1 (-1),
          A21 := F64.fin false 0 0, A22 := F64.fin false 1 0,
          B1 := F64.fin false 0 0, B2 := F64.fin false 3602879701896397 (-54),
          Q11 := F64.fin false 3 0, Q12 := F64.fin false 0 0,
          Q21 := F64.fin false 0 0, Q22 := F64.fin false 3 (-1),
          R := F64.fin false 1 (-1), P11 := F64.fin false 0 0,
          P12 := F64.fin false 0 0, P21 := F64.fin false 0 0,
          P22 := F64.fin false 0 0, K1 := F64.fin false 0 0,
          K2 := F64.fin false 0 0 } := by
  decide

/-- C15, as stated, fails on the doubles the program computes: at the
configuration of `main` (`Q12 = Q21 = 0`) five iterations leave
`P12 = 0x1.17357fcfa7640p+3` and `P21 = 0x1.17357fcfa7641p+3`, which differ in
the last bit because lines 50-51 and 61-62 round differently ordered sums. -/
theorem symmetry_invariant_counterexample :
    (Dbl.toExact (Dbl.mainCtrl Dbl.zeroLQR)).Q12 = (Dbl.toExact (Dbl.mainCtrl Dbl.zeroLQR)).Q21 ∧
    (Dbl.solveRiccatiIterative (Dbl.mainCtrl Dbl.zeroLQR) 5).P12
      = F64.fin false 76748380432857 (-43) ∧
    (Dbl.solveRiccatiIterative (Dbl.mainCtrl Dbl.zeroLQR) 5).P21
      = F64.fin false 4911896347702849 (-49) ∧
    (Dbl.toExact (Dbl.solveRiccatiIterative (Dbl.mainCtrl Dbl.zeroLQR) 5)).P12
      ≠ (Dbl.toExact (Dbl.solveRiccatiIterative (Dbl.mainCtrl Dbl.zeroLQR) 5)).P21 := by
  rw [dbl_solve_main_5, dbl_mainCtrl_eval]
  refine ⟨rfl, rfl, rfl, ?_⟩
  norm_num [Dbl.toExact, F64.toRat]

/-- C14, as stated, fails on the doubles the program computes: at the
configuration of `main` with `n = 5`, `x = (1, 0)` and `u = -K_5 x`, the stored
`P_6` gives `xᵗ P_6 x` strictly greater than
`xᵗ Q x + R u² + (A x + B u)ᵗ P_5 (A x + B u)` (by about `1.1e-15`), so neither the
inequality nor the equality case holds. -/
theorem one_step_optimality_counterexample :
    quadForm (Dbl.toExact (Dbl.mainCtrl Dbl.zeroLQR)).Q11
        (Dbl.toExact (Dbl.mainCtrl Dbl.zeroLQR)).Q12
        (Dbl.toExact (Dbl.mainCtrl Dbl.zeroLQR)).Q21
        (Dbl.toExact (Dbl.mainCtrl Dbl.zeroLQR)).Q22 1 0
      + (Dbl.toExact (Dbl.mainCtrl Dbl.zeroLQR)).R
        * (-((Dbl.toExact (Dbl.solveRiccatiIterative (Dbl.mainCtrl Dbl.zeroLQR) 5)).K1 * 1
            + (Dbl.toExact (Dbl.solveRiccatiIterative (Dbl.mainCtrl Dbl.zeroLQR) 5)).K2 * 0)) ^ 2
      + quadForm (Dbl.toExact (Dbl.solveRiccatiIterative (Dbl.mainCtrl Dbl.zeroLQR) 5)).P11
        (Dbl.toExact (Dbl.solveRiccatiIterative (Dbl.mainCtrl Dbl.zeroLQR) 5)).P12
        (Dbl.toExact (Dbl.solveRiccatiIterative (Dbl.mainCtrl Dbl.zeroLQR) 5)).P21
        (Dbl.toExact (Dbl.solveRiccatiIterative (Dbl.mainCtrl Dbl.zeroLQR) 5)).P22
        ((Dbl.toExact (Dbl.mainCtrl Dbl.zeroLQR)).A11 * 1
          + (Dbl.toExact (Dbl.mainCtrl Dbl.zeroLQR)).A12 * 0
          + (Dbl.toExact (Dbl.mainCtrl Dbl.zeroLQR)).B1
            * -((Dbl.toExact (Dbl.solveRiccatiIterative (Dbl.mainCtrl Dbl.zeroLQR) 5)).K1 * 1
              + (Dbl.toExact (Dbl.solveRiccatiIterative (Dbl.mainCtrl Dbl.zeroLQR) 5)).K2 * 0))
        ((Dbl.toExact (Dbl.mainCtrl Dbl.zeroLQR)).A21 * 1
          + (Dbl.toExact (Dbl.mainCtrl Dbl.zeroLQR)).A22 * 0
          + (Dbl.toExact (Dbl.mainCtrl Dbl.zeroLQR)).B2
            * -((Dbl.toExact (Dbl.solveRiccatiIterative (Dbl.mainCtrl Dbl.zeroLQR) 5)).K1 * 1
              + (Dbl.toExact (Dbl.solveRiccatiIterative (Dbl.mainCtrl Dbl.zeroLQR) 5)).K2 * 0))
    < quadForm (Dbl.toExact (Dbl.solveRiccatiIterative (Dbl.mainCtrl Dbl.zeroLQR) 6)).P11
        (Dbl.toExact (Dbl.solveRiccatiIterative (Dbl.mainCtrl Dbl.zeroLQR) 6)).P12
        (Dbl.toExact (Dbl.solveRiccatiIterative (Dbl.mainCtrl Dbl.zeroLQR) 6)).P21
        (Dbl.toExact (Dbl.solveRiccatiIterative (Dbl.mainCtrl Dbl.zeroLQR) 6)).P22 1 0 := by
  rw [dbl_solve_main_5, dbl_solve_main_6, dbl_mainCtrl_eval]
  norm_num [Dbl.toExact, F64.toRat, quadForm]

set_option maxRecDepth 1000000 in
theorem dbl_solve_round_1 :
    (Dbl.solveRiccatiIterative Dbl.roundCtrl 1).P11 = F64.fin false 2157974821448363 (-48) ∧
    (Dbl.solveRiccatiIterative Dbl.roundCtrl 1).P12 = F64.fin false 2157974821448363 (-48) ∧
    (Dbl.solveRiccatiIterative Dbl.roundCtrl 1).P21 = F64.fin false 2157974821448363 (-48) ∧
    (Dbl.solveRiccatiIterative Dbl.roundCtrl 1).P22 = F64.fin false 8631899285793451 (-50) := by
  decide

set_option maxRecDepth 1000000 in
theorem dbl_roundCtrl_weights :
    Dbl.roundCtrl.Q11 = F64.fin false 1 2 ∧ Dbl.roundCtrl.Q12 = F64.fin false 1 2 ∧
    Dbl.roundCtrl.Q21 = F64.fin false 1 2 ∧ Dbl.roundCtrl.Q22 = F64.fin false 1 2 ∧
    Dbl.roundCtrl.R = F64.fin false 1 (-1) := by
  decide

/-- C16, as stated, fails on the doubles the program computes: with
`A = [[0.1, 0], [1, 1.1]]`, `B = (0.3, -0.1)`, `Q = [[4, 4], [4, 4]]` (symmetric
positive-semidefinite) and `R = 0.5`, one iteration stores
`P = [[a, a], [a, b]]` with `a = 7.666666666666668` and `b = 7.666666666666667`,
so `xᵗ P x = b - a < 0` at `x = (1, -1)`. -/
theorem psd_invariant_counterexample :
    (Dbl.toExact Dbl.roundCtrl).Q12 = (Dbl.toExact Dbl.roundCtrl).Q21 ∧
    PsdQ (Dbl.toExact Dbl.roundCtrl) ∧ 0 < (Dbl.toExact Dbl.roundCtrl).R ∧
    (Dbl.solveRiccatiIterative Dbl.roundCtrl 1).P11 = F64.fin false 2157974821448363 (-48) ∧
    (Dbl.solveRiccatiIterative Dbl.roundCtrl 1).P12 = F64.fin false 2157974821448363 (-48) ∧
    (Dbl.solveRiccatiIterative Dbl.roundCtrl 1).P21 = F64.fin false 2157974821448363 (-48) ∧
    (Dbl.solveRiccatiIterative Dbl.roundCtrl 1).P22 = F64.fin false 8631899285793451 (-50) ∧
    quadForm (Dbl.toExact (Dbl.solveRiccatiIterative Dbl.roundCtrl 1)).P11
      (Dbl.toExact (Dbl.solveRiccatiIterative Dbl.roundCtrl 1)).P12
      (Dbl.toExact (Dbl.solveRiccatiIterative Dbl.roundCtrl 1)).P21
      (Dbl.toExact (Dbl.solveRiccatiIterative Dbl.roundCtrl 1)).P22 1 (-1) < 0 := by
  obtain ⟨p11, p12, p21, p22⟩ := dbl_solve_round_1
  obtain ⟨q11, q12, q21, q22, r⟩ := dbl_roundCtrl_weights
  refine ⟨?_, ?_, ?_, p11, p12, p21, p22, ?_⟩
  · simp only [Dbl.toExact, q12, q21]
  · intro x1 x2
    simp only [Dbl.toExact, q11, q12, q21, q22, quadForm, F64.toRat]
    norm_num
    nlinarith [sq_nonneg (x1 + x2)]
  · simp only [Dbl.toExact, r, F64.toRat]
    norm_num
  · simp only [Dbl.toExact, p11, p12, p21, p22, quadForm, F64.toRat]
    norm_num

set_option maxRecDepth 1000000 in
theorem dbl_solve_drift :
    (Dbl.solveRiccatiIterative Dbl.driftCtrl 0).P11 = F64.fin false 3 0 ∧
    (Dbl.solveRiccatiIterative Dbl.driftCtrl 0).P12 = F64.fin false 0 0 ∧
    (Dbl.solveRiccatiIterative Dbl.driftCtrl 0).P21 = F64.fin false 0 0 ∧
    (Dbl.solveRiccatiIterative Dbl.driftCtrl 0).P22 = F64.fin false 0 0 ∧
    (Dbl.solveRiccatiIterative Dbl.driftCtrl 1).P11 = F64.fin false 6822953435466301 (-51) ∧
    (Dbl.solveRiccatiIterative Dbl.driftCtrl 1).P12 = F64.fin false 4323455642275677 (-57) ∧
    (Dbl.solveRiccatiIterative Dbl.driftCtrl 1).P21 = F64.fin false 4323455642275677 (-57) ∧
    (Dbl.solveRiccatiIterative Dbl.driftCtrl 1).P22 = F64.fin false 4323455642275677 (-57) := by
  decide

set_option maxRecDepth 1000000 in
theorem dbl_driftCtrl_weights :
    Dbl.driftCtrl.Q11 = F64.fin false 3 0 ∧ Dbl.driftCtrl.Q12 = F64.fin false 0 0 ∧
    Dbl.driftCtrl.Q21 = F64.fin false 0 0 ∧ Dbl.driftCtrl.Q22 = F64.fin false 0 0 ∧
    Dbl.driftCtrl.R = F64.fin false 3602879701896397 (-55) := by
  decide

/-- C17, as stated, fails on the doubles the program computes: with
`A = [[0.1, 0.1], [0.2, 0]]`, `B = 0`, `Q = diag(3, 0)` (symmetric
positive-semidefinite) and `R = 0.1`, the iterate for `n = 0` is `Q` and the
iterate for `n = 1` is `[[3.03, a], [a, a]]` with `a = 0.030000000000000006` and
`3.03` the rounded sum `3 + a`; at `x = (1, -1)` the form of `P_1 - P_0` is
`fl(3 + a) - 3 - a < 0`. -/
theorem iterates_monotone_counterexample :
    (Dbl.toExact Dbl.driftCtrl).Q12 = (Dbl.toExact Dbl.driftCtrl).Q21 ∧
    PsdQ (Dbl.toExact Dbl.driftCtrl) ∧ 0 < (Dbl.toExact Dbl.driftCtrl).R ∧
    (Dbl.solveRiccatiIterative Dbl.driftCtrl 1).P11 = F64.fin false 6822953435466301 (-51) ∧
    (Dbl.solveRiccatiIterative Dbl.driftCtrl 1).P12 = F64.fin false 4323455642275677 (-57) ∧
    (Dbl.solveRiccatiIterative Dbl.driftCtrl 1).P21 = F64.fin false 4323455642275677 (-57) ∧
    (Dbl.solveRiccatiIterative Dbl.driftCtrl 1).P22 = F64.fin false 4323455642275677 (-57) ∧
    quadForm
      ((Dbl.toExact (Dbl.solveRiccatiIterative Dbl.driftCtrl 1)).P11
        - (Dbl.toExact (Dbl.solveRiccatiIterative Dbl.driftCtrl 0)).P11)
      ((Dbl.toExact (Dbl.solveRiccatiIterative Dbl.driftCtrl 1)).P12
        - (Dbl.toExact (Dbl.solveRiccatiIterative Dbl.driftCtrl 0)).P12)
      ((Dbl.toExact (Dbl.solveRiccatiIterative Dbl.driftCtrl 1)).P21
        - (Dbl.toExact (Dbl.solveRiccatiIterative Dbl.driftCtrl 0)).P21)
      ((Dbl.toExact (Dbl.solveRiccatiIterative Dbl.driftCtrl 1)).P22
        - (Dbl.toExact (Dbl.solveRiccatiIterative Dbl.driftCtrl 0)).P22) 1 (-1) < 0 := by
  obtain ⟨a11, a12, a21, a22, b11, b12, b21, b22⟩ := dbl_solve_drift
  obtain ⟨q11, q12, q21, q22, r⟩ := dbl_driftCtrl_weights
  refine ⟨?_, ?_, ?_, b11, b12, b21, b22, ?_⟩
  · simp only [Dbl.toExact, q12, q21]
  · intro x1 x2
    simp only [Dbl.toExact, q11, q12, q21, q22, quadForm, F64.toRat]
    norm_num
    nlinarith [sq_nonneg x1]
  · simp only [Dbl.toExact, r, F64.toRat]
    norm_num
  · simp only [Dbl.toExact, a11, a12, a21, a22, b11, b12, b21, b22, quadForm, F64.toRat]
    norm_num

set_option maxRecDepth 1000000 in
theorem dbl_cancelCtrl_eval :
    Dbl.cancelCtrl.Q11 = F64.fin false 25 0 ∧ Dbl.cancelCtrl.Q12 = F64.fin false 35 0 ∧
    Dbl.cancelCtrl.Q21 = F64.fin false 35 0 ∧ Dbl.cancelCtrl.Q22 = F64.fin false 49 0 ∧
    Dbl.cancelCtrl.R = F64.fin false 1 (-1) ∧
    Dbl.calcS (Dbl.initP Dbl.cancelCtrl) = F64.fin false 0 0 ∧
    Dbl.inv_scalar (Dbl.calcS (Dbl.initP Dbl.cancelCtrl)) = F64.inf false ∧
    (Dbl.riccatiBody (Dbl.initP Dbl.cancelCtrl)).P11 = F64.nan ∧
    (Dbl.riccatiBody (Dbl.initP Dbl.cancelCtrl)).P22 = F64.inf true := by
  decide

/-- C8, as stated, fails on the doubles the program computes: with `A = I`,
`B = (11744051.200000001, -8388608)`, `Q = [[25, 35], [35, 49]]` (symmetric
positive-semidefinite) and `R = 0.5 > 0`, the first pass computes
`Bᵗ P B = -0.5` and `S = 0.0`, calls `inv_scalar(0.0) = +inf`, and leaves
`P11 = NaN`, `P22 = -inf`. -/
theorem riccati_inverse_counterexample :
    (Dbl.toExact Dbl.cancelCtrl).Q12 = (Dbl.toExact Dbl.cancelCtrl).Q21 ∧
    PsdQ (Dbl.toExact Dbl.cancelCtrl) ∧ 0 < (Dbl.toExact Dbl.cancelCtrl).R ∧
    Dbl.calcS (Dbl.initP Dbl.cancelCtrl) = F64.fin false 0 0 ∧
    Dbl.inv_scalar (Dbl.calcS (Dbl.initP Dbl.cancelCtrl)) = F64.inf false ∧
    (Dbl.riccatiBody (Dbl.initP Dbl.cancelCtrl)).P11 = F64.nan ∧
    (Dbl.riccatiBody (Dbl.initP Dbl.cancelCtrl)).P22 = F64.inf true := by
  obtain ⟨q11, q12, q21, q22, r, hS, hinv, h11, h22⟩ := dbl_cancelCtrl_eval
  refine ⟨?_, ?_, ?_, hS, hinv, h11, h22⟩
  · simp only [Dbl.toExact, q12, q21]
  · intro x1 x2
    simp only [Dbl.toExact, q11, q12, q21, q22, quadForm, F64.toRat]
    norm_num
    nlinarith [sq_nonneg (5 * x1 + 7 * x2)]
  · simp only [Dbl.toExact, r, F64.toRat]
    norm_num

set_option maxRecDepth 1000000 in
theorem dbl_simulate_overflow :
    (Dbl.simulate Dbl.overflowCtrl (F64.fin false 1 1023) (F64.fin true 1 1023)
        (F64.lit true 6 10) (F64.lit false 6 10) (F64.lit false 5 100) 2).log
      = [{ t := F64.fin false 0 0, ey := F64.fin false 1 1023,
           epsi := F64.fin true 1 1023, delta := F64.fin true 0 0 },
         { t := F64.fin false 3602879701896397 (-56), ey := F64.inf false,
           epsi := F64.inf true, delta := F64.nan }] := by
  decide

/-- C7, as stated, fails on the doubles the program computes: with `A = 2 I`,
`B = 0`, `K = (1, 1)`, `x0 = (2^1023, -2^1023)` and limits `[-0.6, 0.6]`, row 0
records `-0.0`, the state overflows to `(+inf, -inf)`, the raw control of row 1 is
`-(inf + -inf) = NaN`, both tests of lines 129-130 are false, and NaN is recorded:
`delta_min ≤ NaN` does not hold. -/
theorem actuator_limits_counterexample :
    F64.fle (F64.lit true 6 10) (F64.lit false 6 10) = true ∧
    (Dbl.simulate Dbl.overflowCtrl (F64.fin false 1 1023) (F64.fin true 1 1023)
        (F64.lit true 6 10) (F64.lit false 6 10) (F64.lit false 5 100) 2).log
      = [{ t := F64.fin false 0 0, ey := F64.fin false 1 1023,
           epsi := F64.fin true 1 1023, delta := F64.fin true 0 0 },
         { t := F64.fin false 3602879701896397 (-56), ey := F64.inf false,
           epsi := F64.inf true, delta := F64.nan }] ∧
    F64.fle (F64.lit true 6 10) F64.nan = false :=
  ⟨by decide, dbl_simulate_overflow, by decide⟩

/-- C6, as stated, fails on the doubles the program computes: with `dt = 0.05`
the loop accumulates `t += dt` with rounding, and row 6 carries
`0.3 = 5404319552844595 * 2^-54`, which is neither the rounded product
`6 * dt = 0.30000000000000004 = 1351079888211149 * 2^-52` nor the exact product
of `6` and the double `dt = 3602879701896397 * 2^-56`. -/
theorem sample_times_counterexample :
    F64.lit false 5 100 = F64.fin false 3602879701896397 (-56) ∧
    (Dbl.simulate (Dbl.mainCtrl Dbl.zeroLQR) (F64.lit false 1 1) (F64.lit false 2 10)
        (F64.lit true 6 10) (F64.lit false 6 10) (F64.lit false 5 100) 7).log.map Dbl.Sample.t
      = [F64.fin false 0 0, F64.fin false 3602879701896397 (-56),
         F64.fin false 3602879701896397 (-55), F64.fin false 1351079888211149 (-53),
         F64.fin false 3602879701896397 (-54), F64.fin false 1 (-2),
         F64.fin false 5404319552844595 (-54)] ∧
    F64.fmul (F64.lit false 6 1) (F64.lit false 5 100)
      = F64.fin false 1351079888211149 (-52) ∧
    F64.toRat (F64.fin false 5404319552844595 (-54))
      ≠ 6 * F64.toRat (F64.fin false 3602879701896397 (-56)) := by
  refine ⟨by decide, by decide, by decide, ?_⟩
  norm_num [F64.toRat]

/-- C6 (amended): for every step count `N` and step size `dt` the simulation loop
(a total function: it always terminates) emits exactly `N` rows (none for
`N ≤ 0`), whatever the state values are, in double arithmetic as over exact
arithmetic; the time of row `k` is the result of `k` successive additions
`t ← t + dt` from `t0 = 0`, each rounded in double arithmetic; over exact
arithmetic it is exactly `0 + k * dt`, so there the last row carries
`(N - 1) * dt`. -/
theorem sample_count_and_times :
    (∀ (ctrl : Dbl.LQR) (ey0 epsi0 delta_min delta_max dt : F64) (steps : Int),
      (Dbl.simulate ctrl ey0 epsi0 delta_min delta_max dt steps).log.length = steps.toNat ∧
      ∀ k : Nat, k < steps.toNat →
        ∃ s : Dbl.Sample,
          (Dbl.simulate ctrl ey0 epsi0 delta_min delta_max dt steps).log[k]? = some s ∧
          s.t = (fun u => F64.fadd u dt)^[k] (F64.fin false 0 0)) ∧
    (∀ (ctrl : LQR) (ey0 epsi0 delta_min delta_max dt : ℚ) (steps : Int),
      (simulate ctrl ey0 epsi0 delta_min delta_max dt steps).log.length = steps.toNat ∧
      (∀ k : Nat, k < steps.toNat →
        ∃ s : Sample, (simulate ctrl ey0 epsi0 delta_min delta_max dt steps).log[k]? = some s ∧
          s.t = 0 + (k : ℚ) * dt) ∧
      (0 < steps →
        ((simulate ctrl ey0 epsi0 delta_min delta_max dt steps).log.getLast?).map Sample.t
          = some (0 + ((steps : ℚ) - 1) * dt))) := by
  constructor
  · intro ctrl ey0 epsi0 delta_min delta_max dt steps
    rw [dbl_simulate_log]
    have hlen := dbl_trajFrom_length ctrl delta_min delta_max dt steps.toNat
      (F64.fin false 0 0) ey0 epsi0
    refine ⟨hlen, ?_⟩
    intro k hk
    have hk' : k < (Dbl.trajFrom ctrl delta_min delta_max dt steps.toNat
        (F64.fin false 0 0) ey0 epsi0).length := by
      rw [hlen]; exact hk
    exact ⟨_, List.getElem?_eq_getElem hk',
      (dbl_trajFrom_sample _ _ _ _ _ _ _ _ _ _ (List.getElem?_eq_getElem hk')).2⟩
  · intro ctrl ey0 epsi0 delta_min delta_max dt steps
    rw [simulate_log]
    have hlen := trajFrom_length ctrl delta_min delta_max dt steps.toNat 0 ey0 epsi0
    have hk : ∀ k : Nat, k < steps.toNat →
        ∃ s : Sample,
          (trajFrom ctrl delta_min delta_max dt steps.toNat 0 ey0 epsi0)[k]? = some s ∧
          s.t = 0 + (k : ℚ) * dt := by
      intro k hk
      have hk' : k < (trajFrom ctrl delta_min delta_max dt steps.toNat 0 ey0 epsi0).length := by
        rw [hlen]; exact hk
      refine ⟨_, List.getElem?_eq_getElem hk', ?_⟩
      exact (trajFrom_sample _ _ _ _ _ _ _ _ _ _ (List.getElem?_eq_getElem hk')).2
    refine ⟨hlen, hk, ?_⟩
    intro hpos
    have hn : 0 < steps.toNat := by omega
    obtain ⟨s, hs, ht⟩ := hk (steps.toNat - 1) (by omega)
    rw [List.getLast?_eq_getElem?, hlen, hs, Option.map_some', ht]
    have hcast : ((steps.toNat - 1 : Nat) : ℚ) = (steps : ℚ) - 1 := by
      have h0 : ((steps.toNat : Int) : ℚ) = (steps : ℚ) := by
        rw [Int.toNat_of_nonneg (le_of_lt hpos)]
      have h1 : (steps.toNat : ℚ) = (steps : ℚ) := by
        rw [← h0, Int.cast_natCast]
      rw [Nat.cast_sub hn, h1, Nat.cast_one]
    rw [hcast]

/-- C6 (amended) at the run length of `main`: in double arithmetic row 599 exists
and carries the 599-fold rounded accumulation of `dt = 0.05`; over exact
arithmetic the last row carries `599 / 20`. -/
theorem sample_count_and_times_witness :
    (599 : Nat) < (600 : Int).toNat ∧ (0 : Int) < 600 ∧
    (∃ s : Dbl.Sample,
      (Dbl.simulate (Dbl.mainCtrl Dbl.zeroLQR) (F64.lit false 1 1) (F64.lit false 2 10)
        (F64.lit true 6 10) (F64.lit false 6 10) (F64.lit false 5 100) 600).log[599]? = some s ∧
      s.t = (fun u => F64.fadd u (F64.lit false 5 100))^[599] (F64.fin false 0 0)) ∧
    ((simulate (mainCtrl zeroLQR) 1 (1 / 5) (-(3 / 5)) (3 / 5) (1 / 20) 600).log.getLast?).map
        Sample.t = some (0 + (((600 : Int) : ℚ) - 1) * (1 / 20)) :=
  ⟨by decide, by norm_num,
    (sample_count_and_times.1 (Dbl.mainCtrl Dbl.zeroLQR) (F64.lit false 1 1)
      (F64.lit false 2 10) (F64.lit true 6 10) (F64.lit false 6 10) (F64.lit false 5 100)
      600).2 599 (by decide),
    (sample_count_and_times.2 (mainCtrl zeroLQR) 1 (1 / 5) (-(3 / 5)) (3 / 5) (1 / 20) 600).2.2
      (by norm_num)⟩

/-- C7 (amended) at the limits of `main` on a three-step run with gain
`K = (1, 1)`. -/
theorem actuator_limits_double_witness :
    F64.fle (F64.lit true 6 10) (F64.lit false 6 10) = true ∧
    ∀ s ∈ (Dbl.simulate Dbl.overflowCtrl (F64.lit false 1 1) (F64.lit false 2 10)
        (F64.lit true 6 10) (F64.lit false 6 10) (F64.lit false 5 100) 3).log,
      F64.fneg (F64.fadd (F64.fmul Dbl.overflowCtrl.K1 s.ey)
          (F64.fmul Dbl.overflowCtrl.K2 s.epsi)) ≠ F64.nan →
        F64.fle (F64.lit true 6 10) s.delta = true ∧
        F64.fle s.delta (F64.lit false 6 10) = true :=
  ⟨by decide, fun s hs hr =>
    ⟨(((actuator_limits_double Dbl.overflowCtrl (F64.lit false 1 1) (F64.lit false 2 10)
        (F64.lit true 6 10) (F64.lit false 6 10) (F64.lit false 5 100) 3 (by decide)).2 s hs).2
        hr).1,
     (((actuator_limits_double Dbl.overflowCtrl (F64.lit false 1 1) (F64.lit false 2 10)
        (F64.lit true 6 10) (F64.lit false 6 10) (F64.lit false 5 100) 3 (by decide)).2 s hs).2
        hr).2.1⟩⟩

end LqrLaneKeeping
